import Mathlib

/-!
# Verification of the hwsc-user-svc user-account service

A shallow embedding, in Lean 4, of the parts of the `hwsc-user-svc` Go
repository that the specification's claims are about, together with
theorems settling those claims.

Conventions of the embedding:

* Go `time.Time` values are modelled at one-second granularity as an
  instant (`unix`: seconds since the Unix epoch, an `Int`) paired with the
  fixed offset in seconds of the value's location from UTC.  Go's civil
  calendar functions (`Weekday`, `Year/Month/Day`, `time.Date`,
  `AddDate`) all factor through the civil day number
  `(unix + offset) / 86400` (floor division), because the proleptic
  Gregorian triple `(year, month, day)` is in bijection with the day
  number; the embedding works with day numbers directly.
* Machine integers are `Int`/`Nat`; all divisors are positive constants,
  for which Lean's Euclidean `/` and `%` on `Int` agree with Go's
  floor-based civil-time arithmetic.
* Fallible Go functions return `Option`/`Except`.
* Randomness and other environment effects (the generated ULID, bcrypt,
  the SQL driver's transient failures, SMTP) are passed in explicitly as
  oracle parameters so every definition is a computable function.
-/

/-! ## Go time values (`time.Time` at second granularity, fixed-offset zones) -/

/-- A Go `time.Time` at one-second granularity: the instant in seconds
since the Unix epoch, plus the fixed offset of its location from UTC. -/
structure GoTime where
  unix : Int
  offset : Int
deriving DecidableEq, Repr

/-- Seconds-since-epoch of Go's zero `time.Time` (January 1, year 1,
00:00:00 UTC): 719162 days before 1970-01-01. -/
def goZeroUnix : Int := -62135596800

/-- Model of `t.IsZero()`: the zero `Time` has the zero instant and the nil (UTC)
location. -/
def GoTime.isZero (t : GoTime) : Bool := t.unix = goZeroUnix && t.offset = 0

/-- Model of `daysInWeek` constant from `service/utility.go`. -/
def daysInWeek : Int := 7

/-- Model of `generateSecretExpirationDate` from `service/utility.go` (lines
201-219), step by step:

* `currentDate.IsZero()` guard returns the error `ErrInvalidTimeDate`
  (here `none`);
* `timeZonedDate := currentDate.UTC()` is the same instant with offset 0,
  so `timeZonedDate.Weekday()` is `(unix / 86400 + 4) % 7`
  (day 0, 1970-01-01, was a Thursday = 4; Sunday = 0);
* `addDays := ((daysInWeek - currentWeekday) % daysInWeek) + 1`
  (both operands nonnegative, so Go's truncating `%` agrees with `%`);
* `modifiedDate := currentDate.AddDate(0, 0, addDays)` adds whole days on
  the wall clock of `currentDate`'s own location; in a fixed-offset zone
  that is exactly `unix + addDays * 86400`;
* `time.Date(modifiedDate.Year(), modifiedDate.Month(),
  modifiedDate.Day(), 3, 0, 0, 0, timeZonedDate.Location())` takes the
  civil date of `modifiedDate` *as displayed in `currentDate`'s location*
  (day number `(modified + offset) / 86400`) and rebuilds an instant at
  03:00:00 in `timeZonedDate`'s location, which is UTC (offset 0). -/
def generateSecretExpirationDate (currentDate : GoTime) : Option GoTime :=
  if currentDate.isZero then none
  else
    let currentWeekday : Int := (currentDate.unix / 86400 + 4) % 7
    let addDays : Int := (daysInWeek - currentWeekday) % daysInWeek + 1
    let modified : Int := currentDate.unix + addDays * 86400
    let localDay : Int := (modified + currentDate.offset) / 86400
    some ⟨localDay * 86400 + 3 * 3600, 0⟩

/-- An instant is a "Monday 03:00 UTC boundary" iff it is congruent to
Monday 1970-01-05 03:00:00 UTC (= 356400) modulo a week of seconds. -/
def isMondayBoundary (u : Int) : Bool := u % 604800 = 356400

/-- The least Monday-03:00-UTC boundary strictly after `u`. -/
def nextMondayBoundary (u : Int) : Int := u + (356400 - u - 1) % 604800 + 1

/-- The instant `u` falls on a Monday (in UTC) strictly before 03:00 UTC. -/
def mondayBefore3am (u : Int) : Bool :=
  (u / 86400 + 4) % 7 = 1 && u % 86400 < 10800

/-! ## Strings: Go whitespace, trimming, UTF-8 length -/

/-- RE2's `\s` character class: `[\t\n\f\r ]`. -/
def isRe2Space (c : Char) : Bool :=
  c = '\t' || c = '\n' || c = '\x0c' || c = '\r' || c = ' '

/-- Unicode `\p{Zs}` (space separators). -/
def isZs (c : Char) : Bool :=
  c = ' ' || c = ' ' || c = ' ' ||
  (' ' ≤ c && c ≤ ' ') || c = ' ' || c = ' ' || c = '　'

/-- Go's `unicode.IsSpace` (the `White_Space` property), used by
`strings.TrimSpace`. -/
def isGoUnicodeSpace (c : Char) : Bool :=
  c = '\t' || c = '\n' || c = '\x0b' || c = '\x0c' || c = '\r' || c = ' ' ||
  c = '\u0085' || c = ' ' || c = ' ' ||
  (' ' ≤ c && c ≤ ' ') || c = ' ' || c = ' ' ||
  c = ' ' || c = ' ' || c = '　'

/-- Go `strings.TrimSpace`. -/
def goTrimSpace (s : String) : String :=
  ⟨((s.data.dropWhile isGoUnicodeSpace).reverse.dropWhile isGoUnicodeSpace).reverse⟩

/-- The class matched by `multiSpaceRegex`'s body: `[\s\p{Zs}]`. -/
def isMultiSpaceClass (c : Char) : Bool := isRe2Space c || isZs c

/-- State for the left-to-right scan embedding
`multiSpaceRegex.ReplaceAllString(name, " ")`: outside any whitespace run,
having seen exactly one (not yet emitted) whitespace character, or inside
a run of length at least two whose single replacement `' '` has already
been emitted. -/
inductive CollapseState where
  | normal : CollapseState
  | oneWs : Char → CollapseState
  | inRun : CollapseState

/-- Scanner for `collapseSpaces`, structurally recursive on the input. -/
def collapseAux : CollapseState → List Char → List Char
  | .normal, [] => []
  | .oneWs w, [] => [w]
  | .inRun, [] => []
  | .normal, c :: rest =>
    if isMultiSpaceClass c then collapseAux (.oneWs c) rest
    else c :: collapseAux .normal rest
  | .oneWs w, c :: rest =>
    if isMultiSpaceClass c then ' ' :: collapseAux .inRun rest
    else w :: c :: collapseAux .normal rest
  | .inRun, c :: rest =>
    if isMultiSpaceClass c then collapseAux .inRun rest
    else c :: collapseAux .normal rest

/-- Model of `multiSpaceRegex.ReplaceAllString(name, " ")` with
`multiSpaceRegex = [\s\p{Zs}]{2,}`: each maximal run of two or more
whitespace/space-separator characters is one (leftmost, greedy) match and
is replaced by a single ASCII space; lone whitespace characters are left
untouched. -/
def collapseSpaces (l : List Char) : List Char := collapseAux .normal l

/-! ## The Brzozowski-derivative matcher used to embed the Go regexes -/

/-- Regular expressions over characters, with arbitrary decidable
character classes (mirroring RE2 character classes). -/
inductive RE where
  | emp : RE
  | eps : RE
  | cls : (Char → Bool) → RE
  | alt : RE → RE → RE
  | cat : RE → RE → RE
  | star : RE → RE

/-- Does `r` accept the empty string? -/
def RE.nullable : RE → Bool
  | .emp => false
  | .eps => true
  | .cls _ => false
  | .alt a b => a.nullable || b.nullable
  | .cat a b => a.nullable && b.nullable
  | .star _ => true

/-- Brzozowski derivative of `r` by the character `c`. -/
def RE.deriv : RE → Char → RE
  | .emp, _ => .emp
  | .eps, _ => .emp
  | .cls p, c => if p c then .eps else .emp
  | .alt a b, c => .alt (a.deriv c) (b.deriv c)
  | .cat a b, c =>
    if a.nullable then .alt (.cat (a.deriv c) b) (b.deriv c)
    else .cat (a.deriv c) b
  | .star a, c => .cat (a.deriv c) (.star a)

/-- Full (anchored) match of `r` against the character list `l`. -/
def RE.matchList (r : RE) (l : List Char) : Bool :=
  (l.foldl RE.deriv r).nullable

/-- Model of `r?` -/
def reOpt (r : RE) : RE := .alt .eps r

/-- Model of `r+` -/
def rePlus (r : RE) : RE := .cat r (.star r)

/-- A single literal character. -/
def reChar (c : Char) : RE := .cls (fun d => d = c)

/-! ## Field validators (`service/utility.go`, `service/email.go`) -/

/-- The error values of the `consts` package and the failure modes of the
external collaborators (SQL driver, bcrypt, SMTP, ULID parsing) that the
service code branches on. -/
inductive UlidParseError where
  | badDataSize
  | invalidCharacters
  | overflow
deriving DecidableEq, Repr

inductive SvcError where
  | errNilRequestUser
  | errInvalidUserFirstName
  | errInvalidUserLastName
  | errInvalidUserEmail
  | errInvalidPassword
  | errInvalidUserOrganization
  | errInvalidUUID
  | errDoesNotExistUUID
  | errInvalidToken
  | errServiceUnavailable
  | errEmailRequestFieldsEmpty
  | errNilRequestIdentification
  | errEmptyToken
  | errNoMatchingEmailTokenFound
  | errExpiredEmailToken
  | bcryptFailure
  | tokenGenFailure
  | pqUniqueViolationUuid
  | pqUniqueViolationEmail
  | insertTokenStoreFailure
  | deleteStoreFailure
  | dbConnectionFailure
  | smtpSendFailure
  | ulidParseError (e : UlidParseError)
deriving DecidableEq, Repr

/-- Model of `[[:alpha:]]` (POSIX, ASCII letters only in RE2). -/
def isAsciiAlpha (c : Char) : Bool := c.isAlpha

/-- The separator class `['.\s-]` of `nameValidCharsRegex`. -/
def nameSepClass (c : Char) : Bool :=
  c = '\'' || c = '.' || c = '-' || isRe2Space c

/-- The class `[[:alpha:]\s]` of `nameValidCharsRegex`. -/
def nameAlphaSpaceClass (c : Char) : Bool := isAsciiAlpha c || isRe2Space c

/-- Model of `nameValidCharsRegex = ^[[:alpha:]]+((['.\s-][[:alpha:]\s])?[[:alpha:]]*)*$`
(anchored, so `MatchString` is a full match). -/
def nameValidCharsRE : RE :=
  .cat (rePlus (.cls isAsciiAlpha))
    (.star (.cat (reOpt (.cat (.cls nameSepClass) (.cls nameAlphaSpaceClass)))
      (.star (.cls isAsciiAlpha))))

/-- RE2 `.`: any character except newline. -/
def isNonNewline (c : Char) : Bool := c ≠ '\n'

/-- Any character, used to embed an unanchored search as a full match. -/
def anyCharRE : RE := .cls (fun _ => true)

/-- Model of `emailRegex = .+@.+`, unanchored (`MatchString` searches for any
matching substring, embedded here by padding both sides with `.*` over
all characters). -/
def emailSearchRE : RE :=
  .cat (.star anyCharRE)
    (.cat (rePlus (.cls isNonNewline))
      (.cat (reChar '@')
        (.cat (rePlus (.cls isNonNewline)) (.star anyCharRE))))

/-- Model of `maxFirstNameLength`/`maxLastNameLength` from `service/utility.go`. -/
def maxNameLength : Nat := 32

/-- Model of `maxEmailLength` from `service/email.go`. -/
def maxEmailLength : Nat := 320

/-- Model of `validatePassword` (`service/utility.go` lines 66-71). -/
def validatePassword (password : String) : Option SvcError :=
  if goTrimSpace password = "" then some .errInvalidPassword else none

/-- Model of `validateFirstName` (`service/utility.go` lines 73-85); Go `len` is
the UTF-8 byte length. -/
def validateFirstName (name : String) : Option SvcError :=
  let name := goTrimSpace name
  if name = "" then some .errInvalidUserFirstName
  else
    let name : String := ⟨collapseSpaces name.data⟩
    if name.utf8ByteSize > maxNameLength || !(nameValidCharsRE.matchList name.data) then
      some .errInvalidUserFirstName
    else none

/-- Model of `validateLastName` (`service/utility.go` lines 87-99). -/
def validateLastName (name : String) : Option SvcError :=
  let name := goTrimSpace name
  if name = "" then some .errInvalidUserLastName
  else
    let name : String := ⟨collapseSpaces name.data⟩
    if name.utf8ByteSize > maxNameLength || !(nameValidCharsRE.matchList name.data) then
      some .errInvalidUserLastName
    else none

/-- Model of `validateOrganization` (`service/utility.go` lines 101-106). -/
def validateOrganization (name : String) : Option SvcError :=
  if name = "" then some .errInvalidUserOrganization else none

/-- Model of `validateEmail` (`service/email.go` lines 174-180). -/
def validateEmail (email : String) : Option SvcError :=
  if email.utf8ByteSize > maxEmailLength || !(emailSearchRE.matchList email.data) then
    some .errInvalidUserEmail
  else none

/-! ## ULID encoding (`oklog/ulid`), `generateUUID`, `validateUUID` -/

/-- The `oklog/ulid` `Encoding` table `"0123456789ABCDEFGHJKMNPQRSTVWXYZ"`
(Crockford base 32). -/
def crockfordChars : List Char :=
  ['0','1','2','3','4','5','6','7','8','9','A','B','C','D','E','F',
   'G','H','J','K','M','N','P','Q','R','S','T','V','W','X','Y','Z']

/-- Crockford base-32 digit to character (indexing into `Encoding`). -/
def digitToChar (d : Nat) : Char := crockfordChars.getD d '0'

/-- Position of `c` in a character table, counting from `i`. -/
def charToDigitAux : List Char → Nat → Char → Option Nat
  | [], _, _ => none
  | a :: rest, i, c => if c = a then some i else charToDigitAux rest (i + 1) c

/-- The `oklog/ulid` decode table restricted to the characters that can
occur after `strings.ToUpper` (`validateUUID` upper-cases its argument
before parsing, so the table's lower-case aliases are never consulted);
`none` marks an invalid character (`0xFF` in the Go table). -/
def charToDigit (c : Char) : Option Nat := charToDigitAux crockfordChars 0 c

/-- The base-32 digits of `n`, most significant first, `k` digits
(`ulid.ULID.String()` emits the 128-bit value as 26 such digits; the
leading digit carries only 3 bits). -/
def encodeDigits : Nat → Nat → List Nat
  | 0, _ => []
  | k + 1, n => n / 32 ^ k :: encodeDigits k (n % 32 ^ k)

/-- Reassemble a most-significant-first base-32 digit list. -/
def decodeDigits (l : List Nat) : Nat := l.foldl (fun acc d => acc * 32 + d) 0

/-- Model of `ulid.ULID.String()`: the canonical 26-character upper-case Crockford
base-32 encoding of the 128-bit value `n`. -/
def ulidString (n : Nat) : String := ⟨(encodeDigits 26 n).map digitToChar⟩

/-- Go `strings.ToLower` (character-wise; ASCII on every character the
service produces or compares). -/
def toLowerStr (s : String) : String := ⟨s.data.map Char.toLower⟩

/-- Go `strings.ToUpper`. -/
def toUpperStr (s : String) : String := ⟨s.data.map Char.toUpper⟩

/-- Model of `ulid.ParseStrict`: errors on length ≠ 26
(`"ulid: bad data size when unmarshaling"`), on a character outside the
encoding table, and on a leading character above `'7'` (a value beyond
128 bits); otherwise decodes. -/
def ulidParseStrict (s : String) : Except UlidParseError Nat :=
  if s.data.length ≠ 26 then .error .badDataSize
  else
    match s.data.mapM charToDigit with
    | none => .error .invalidCharacters
    | some ds =>
      if s.data.headD '0' > '7' then .error .overflow
      else .ok (decodeDigits ds)

/-- Model of `generateUUID` (`service/utility.go` lines 110-123): builds a ULID
from the current timestamp and seeded entropy — abstracted here as the
128-bit value `id` — and returns the lower-cased `ulid.ULID.String()`. -/
def generateUUID (id : Nat) : String := toLowerStr (ulidString id)

/-- Model of `validateUUID` (`service/utility.go` lines 127-145): rejects `""`,
upper-cases and `ParseStrict`s, maps the bad-data-size error to
`ErrInvalidUUID` and passes other parse errors through, then requires the
input to equal the lower-cased canonical re-encoding. -/
def validateUUID (uuid : String) : Option SvcError :=
  if uuid = "" then some .errInvalidUUID
  else
    match ulidParseStrict (toUpperStr uuid) with
    | .error .badDataSize => some .errInvalidUUID
    | .error e => some (.ulidParseError e)
    | .ok id =>
      if toLowerStr (ulidString id) ≠ uuid then some .errInvalidUUID
      else none

/-! ## The service data model (`pb` protobuf types and the SQL store) -/

/-- The RPC status codes the service uses (`google.golang.org/grpc/codes`). -/
inductive Code where
  | ok
  | invalidArgument
  | unknown
  | internal
  | notFound
  | unavailable
  | deadlineExceeded
  | alreadyExists
  | unauthenticated
deriving DecidableEq, Repr

/-- Model of `pb.User`; proto getters return zero values (`""`, `0`, `false`) for
unset fields, which the model bakes into the field defaults.  The
`prospectiveEmail` column belongs to the email-change flow of the schema
(`NULL` modelled as `""`). -/
structure User where
  uuid : String := ""
  firstName : String := ""
  lastName : String := ""
  email : String := ""
  password : String := ""
  organization : String := ""
  createdDate : Int := 0
  isVerified : Bool := false
  prospectiveEmail : String := ""
deriving DecidableEq, Repr

/-- Model of `pb.Identification` (carries the presented token). -/
structure Identification where
  token : String := ""
deriving DecidableEq, Repr

/-- Model of `pb.UserRequest`; a `nil` request itself is modelled by wrapping in
`Option` at each operation's entry. -/
structure UserRequest where
  user : Option User := none
  identification : Option Identification := none
deriving DecidableEq, Repr

/-- Model of `pb.UserResponse`. -/
structure UserResponse where
  code : Code
  message : String
  user : Option User := none
deriving DecidableEq, Repr

/-- A row of `user_svc.accounts`. -/
structure AccountRow where
  uuid : String
  firstName : String
  lastName : String
  email : String
  password : String
  organization : String
  createdDate : Int
  isVerified : Bool
  prospectiveEmail : String := ""
deriving DecidableEq, Repr

/-- A row of the email-token table (`user_svc.pending_tokens`; the later
schema's `email_tokens` adds the expiration column consumed by
`VerifyEmailToken`). -/
structure EmailTokenRow where
  token : String
  uuid : String
  createdDate : Int := 0
  expiration : Int := 0
deriving DecidableEq, Repr

/-- A row of the auth-token table.  No operation embedded here touches
it; it is carried so state-preservation theorems can speak about it. -/
structure AuthTokenRow where
  token : String
  uuid : String
deriving DecidableEq, Repr

/-- The relational store. -/
structure Store where
  accounts : List AccountRow := []
  emailTokens : List EmailTokenRow := []
  authTokens : List AuthTokenRow := []
deriving DecidableEq, Repr

/-- Observable side effects of one call, in order of occurrence.
`lockExclusive`/`lockShared` record the mode in which the per-identity
`sync.RWMutex` from `uuidMapLocker` is taken (`Lock` vs `RLock`);
`lockEvicted` records `uuidMapLocker.Delete`; `logError` records a
logged-and-swallowed error. -/
inductive Event where
  | lockExclusive (uuid : String)
  | lockShared (uuid : String)
  | lockEvicted (uuid : String)
  | insertAccount (uuid : String)
  | insertEmailToken (uuid : String)
  | deleteAccount (uuid : String)
  | updateAccount (uuid : String)
  | emailSent (recipient : String)
  | logError (e : SvcError)
deriving DecidableEq, Repr

/-- The environment/oracle for one call: the availability flag, the
database-liveness outcome, the wall clock, and the outcomes of the
randomised or external collaborators (ULID entropy, bcrypt, the SQL
driver's transient failures, SMTP, and the `updateUserRow` data-access
helper, whose body is not part of the sources under verification and is
therefore abstracted). -/
structure Env where
  stateAvailable : Bool := true
  dbOk : Bool := true
  now : Int := 0
  uuidResult : Option String := some ""
  bcryptOk : Bool := true
  hashOf : String → String := fun p => p
  emailTokenResult : Option String := some "token"
  insertTokenOk : Bool := true
  deleteOk : Bool := true
  confUsername : String := "sender"
  smtpOk : Bool := true
  updateRow : Store → User → User → Except SvcError Store := fun st _ _ => .ok st

/-- The outcome of one RPC call: the response/error pair returned to the
caller, the store afterwards, and the trace of side effects. -/
structure RpcResult where
  response : Option UserResponse
  error : Option (Code × SvcError)
  store : Store
  events : List Event
deriving DecidableEq, Repr

/-- Failure result (a `nil` response plus a `status.Error`). -/
def fail (c : Code) (e : SvcError) (st : Store) (evs : List Event) : RpcResult :=
  ⟨none, some (c, e), st, evs⟩

/-- The `responseServiceUnavailable` package variable. -/
def responseServiceUnavailable : UserResponse :=
  ⟨.unavailable, "Unavailable", none⟩

/-! ## Data-access helpers (`part_002` lines 536-660) -/

/-- Model of `insertNewUser`: nil guard, then the SQL `INSERT` into
`user_svc.accounts`, whose `PRIMARY KEY (uuid)` and `UNIQUE (email)`
constraints make the driver return a unique-violation error on a
duplicate; `created_date` is `time.Now().UTC()`. -/
def insertNewUser (now : Int) (st : Store) (user : Option User) :
    Except SvcError Store :=
  match user with
  | none => .error .errNilRequestUser
  | some u =>
    if st.accounts.any (fun a => a.uuid == u.uuid) then
      .error .pqUniqueViolationUuid
    else if st.accounts.any (fun a => a.email == u.email) then
      .error .pqUniqueViolationEmail
    else
      .ok { st with accounts := st.accounts ++
        [⟨u.uuid, u.firstName, u.lastName, u.email, u.password,
          u.organization, now, u.isVerified, ""⟩] }

/-- Model of `insertToken`: empty-string guards, then the SQL `INSERT` into the
pending-token table (`token` is the primary key; `env.insertTokenOk`
models a transient driver failure). -/
def insertToken (env : Env) (st : Store) (uuid token : String) :
    Except SvcError Store :=
  if uuid = "" then .error .errInvalidUUID
  else if token = "" then .error .errInvalidToken
  else if !env.insertTokenOk then .error .insertTokenStoreFailure
  else if st.emailTokens.any (fun r => r.token == token) then
    .error .insertTokenStoreFailure
  else .ok { st with emailTokens := st.emailTokens ++ [⟨token, uuid, env.now, 0⟩] }

/-- Model of `checkUserExists`: empty guard, then a `SELECT` scan for the uuid. -/
def checkUserExists (st : Store) (uuid : String) : Except SvcError Bool :=
  if uuid = "" then .error .errInvalidUUID
  else .ok (st.accounts.any (fun a => a.uuid == uuid))

/-- Model of `deleteUser`: empty guard, then the SQL `DELETE` on
`user_svc.accounts`; the schema's `ON DELETE CASCADE` removes the
account's token rows with it (`env.deleteOk` models a transient driver
failure). -/
def deleteUser (env : Env) (st : Store) (uuid : String) : Except SvcError Store :=
  if uuid = "" then .error .errInvalidUUID
  else if !env.deleteOk then .error .deleteStoreFailure
  else .ok { st with
    accounts := st.accounts.filter (fun a => a.uuid != uuid),
    emailTokens := st.emailTokens.filter (fun r => r.uuid != uuid) }

/-- The `pb.User` built by `getUserRow`'s row scan: the `SELECT` lists
`uuid, first_name, last_name, email, organization, created_date` — the
password digest (and the rest) is never selected, so the corresponding
response fields keep their proto zero values. -/
def rowToUser (a : AccountRow) : User :=
  { uuid := a.uuid, firstName := a.firstName, lastName := a.lastName,
    email := a.email, password := "", organization := a.organization,
    createdDate := a.createdDate, isVerified := false, prospectiveEmail := "" }

/-- Model of `getUserRow`: empty guard, then the row scan; `(nil, nil)` — here
`.ok none` — when no row matches. -/
def getUserRow (st : Store) (uuid : String) : Except SvcError (Option User) :=
  if uuid = "" then .error .errInvalidUUID
  else .ok ((st.accounts.find? (fun a => a.uuid == uuid)).map rowToUser)

/-! ## `validateUser` and `hashPassword` (`service/utility.go`) -/

/-- Model of `validateUser` (`service/utility.go` lines 43-64): nil guard, then
first name, last name, email, password (any password error collapsed to
`ErrInvalidPassword`), organization. -/
def validateUser (user : Option User) : Option SvcError :=
  match user with
  | none => some .errNilRequestUser
  | some u =>
    match validateFirstName u.firstName with
    | some e => some e
    | none =>
      match validateLastName u.lastName with
      | some e => some e
      | none =>
        match validateEmail u.email with
        | some e => some e
        | none =>
          if (validatePassword u.password).isSome then some .errInvalidPassword
          else
            match validateOrganization u.organization with
            | some e => some e
            | none => none

/-- Model of `hashPassword` (`service/utility.go` lines 149-160): rejects the
empty password and any password that differs from its own
`strings.TrimSpace`; then bcrypt (whose rare generator failure is the
`bcryptOk` oracle and whose salted digest is the `hashOf` oracle). -/
def hashPassword (env : Env) (password : String) : Except SvcError String :=
  if password = "" ∨ goTrimSpace password ≠ password then .error .errInvalidPassword
  else if !env.bcryptOk then .error .bcryptFailure
  else .ok (env.hashOf password)

/-! ## The RPC operations (`part_002` lines 54-387) -/

/-- Model of `GetStatus` (`part_002` lines 56-71): when the service state is not
available, or when `refreshDBConnection` fails, it returns
`responseServiceUnavailable` *with a `nil` error*; otherwise an OK
response.  It never returns a `nil` response or a non-`nil` error. -/
def GetStatus (env : Env) : Option UserResponse × Option (Code × SvcError) :=
  if !env.stateAvailable then (some responseServiceUnavailable, none)
  else if !env.dbOk then (some responseServiceUnavailable, none)
  else (some ⟨.ok, "OK", none⟩, none)

/-- Model of `CreateUser`'s tail (`part_002` lines 152-168): `newEmailRequest`
(which fails exactly when the configured sender is empty, the recipient
slice and constant subject being non-empty) and `sendEmail`; neither
failure rolls anything back. -/
def createUserFinish (env : Env) (st2 : Store) (uuid email : String)
    (evs : List Event) : RpcResult :=
  if env.confUsername = "" then fail .unknown .errEmailRequestFieldsEmpty st2 evs
  else if !env.smtpOk then fail .unknown .smtpSendFailure st2 evs
  else ⟨some ⟨.ok, "OK", some { uuid := uuid }⟩, none, st2,
    evs ++ [Event.emailSent email]⟩

/-- Model of `CreateUser`'s token step (`part_002` lines 134-150):
`generateEmailToken`, then `insertToken`; when the token insert fails
the just-inserted account row is removed by a compensating `deleteUser`
whose own failure is only logged, and the call still returns the token
insert's error. -/
def createUserInsertToken (env : Env) (st1 : Store) (uuid email : String) : RpcResult :=
  match env.emailTokenResult with
  | none => fail .unknown .tokenGenFailure st1
      [Event.lockExclusive uuid, Event.insertAccount uuid]
  | some token =>
    match insertToken env st1 uuid token with
    | .error e =>
      match deleteUser env st1 uuid with
      | .error de => fail .unknown e st1
          [Event.lockExclusive uuid, Event.insertAccount uuid, Event.logError de]
      | .ok st2 => fail .unknown e st2
          [Event.lockExclusive uuid, Event.insertAccount uuid, Event.deleteAccount uuid]
    | .ok st2 => createUserFinish env st2 uuid email
        [Event.lockExclusive uuid, Event.insertAccount uuid, Event.insertEmailToken uuid]

/-- Model of `CreateUser`'s account insert (`part_002` lines 127-132), on the
already-hashed user. -/
def createUserInsert (env : Env) (st : Store) (user : User) : RpcResult :=
  match insertNewUser env.now st (some user) with
  | .error e => fail .unknown e st [Event.lockExclusive user.uuid]
  | .ok st1 => createUserInsertToken env st1 user.uuid user.email

/-- Model of `CreateUser` after uuid assignment and the exclusive lock
acquisition (`part_002` lines 114-125): `hashPassword`, then
`user.Password = hashed; user.IsVerified = false` and the insert. -/
def createUserLocked (env : Env) (st : Store) (user : User) : RpcResult :=
  match hashPassword env user.password with
  | .error e => fail .unknown e st [Event.lockExclusive user.uuid]
  | .ok hashed =>
    createUserInsert env st { user with password := hashed, isVerified := false }

/-- Model of `CreateUser` (`part_002` lines 74-169), step for step: availability
gate, nil-request guard, DB liveness, nil-user guard, `validateUser`,
`generateUUID`, then the per-uuid exclusive lock and the phases above;
every failure is returned as a `nil` response plus a status error. -/
def CreateUser (env : Env) (req : Option UserRequest) (st : Store) : RpcResult :=
  if !env.stateAvailable then fail .unavailable .errServiceUnavailable st []
  else
    match req with
    | none => fail .invalidArgument .errNilRequestUser st []
    | some r =>
      if !env.dbOk then fail .unknown .dbConnectionFailure st []
      else
        match r.user with
        | none => fail .invalidArgument .errNilRequestUser st []
        | some user =>
          match validateUser (some user) with
          | some e => fail .invalidArgument e st []
          | none =>
            match env.uuidResult with
            | none => fail .unknown .tokenGenFailure st []
            | some uuid => createUserLocked env st { user with uuid := uuid }

/-- Model of `DeleteUser` (`part_002` lines 172-229): availability gate,
nil-request guard, DB liveness, nil-user guard, `validateUUID`, per-uuid
exclusive lock, `checkUserExists` (error: lock-entry eviction plus
`Internal`; absent: `NotFound`), then the `deleteUser` data-access
call. -/
def DeleteUser (env : Env) (req : Option UserRequest) (st : Store) : RpcResult :=
  if !env.stateAvailable then fail .unavailable .errServiceUnavailable st []
  else
    match req with
    | none => fail .invalidArgument .errNilRequestUser st []
    | some r =>
      if !env.dbOk then fail .unknown .dbConnectionFailure st []
      else
        match r.user with
        | none => fail .invalidArgument .errNilRequestUser st []
        | some user =>
          match validateUUID user.uuid with
          | some e => fail .invalidArgument e st []
          | none =>
            let evs := [Event.lockExclusive user.uuid]
            match checkUserExists st user.uuid with
            | .error e => fail .internal e st (evs ++ [.lockEvicted user.uuid])
            | .ok false => fail .notFound .errDoesNotExistUUID st evs
            | .ok true =>
              match deleteUser env st user.uuid with
              | .error e => fail .internal e st evs
              | .ok st1 =>
                ⟨some ⟨.ok, "OK", none⟩, none, st1,
                  evs ++ [Event.deleteAccount user.uuid]⟩

/-- Model of `GetUser` (`part_002` lines 317-380): availability gate, nil-request
guard, DB liveness, nil-user guard, `validateUUID`, per-uuid lock —
taken in *exclusive* mode (`lock.(*sync.RWMutex).Lock()`, line 347) —
`checkUserExists`, then `getUserRow`, whose row (sans password) is
returned in an OK response. -/
def GetUser (env : Env) (req : Option UserRequest) (st : Store) : RpcResult :=
  if !env.stateAvailable then fail .unavailable .errServiceUnavailable st []
  else
    match req with
    | none => fail .invalidArgument .errNilRequestUser st []
    | some r =>
      if !env.dbOk then fail .unknown .dbConnectionFailure st []
      else
        match r.user with
        | none => fail .invalidArgument .errNilRequestUser st []
        | some user =>
          match validateUUID user.uuid with
          | some e => fail .invalidArgument e st []
          | none =>
            let evs := [Event.lockExclusive user.uuid]
            match checkUserExists st user.uuid with
            | .error e => fail .internal e st (evs ++ [.lockEvicted user.uuid])
            | .ok false => fail .notFound .errDoesNotExistUUID st evs
            | .ok true =>
              match getUserRow st user.uuid with
              | .error e => fail .internal e st evs
              | .ok none => fail .internal .errDoesNotExistUUID st evs
              | .ok (some u) => ⟨some ⟨.ok, "OK", some u⟩, none, st, evs⟩

/-- Model of `UpdateUser`'s final step (`part_002` lines 290-299): the
`updateUserRow` data-access helper (not among the sources under
verification; abstracted as the `env.updateRow` oracle), whose failure
maps to `Unknown`. -/
def updateUserApply (env : Env) (st : Store) (svcUser dbUser : User) : RpcResult :=
  match env.updateRow st svcUser dbUser with
  | .error e => fail .unknown e st [Event.lockExclusive svcUser.uuid]
  | .ok st1 =>
    ⟨some ⟨.ok, "OK", none⟩, none, st1,
      [Event.lockExclusive svcUser.uuid, Event.updateAccount svcUser.uuid]⟩

/-- Model of `UpdateUser` (`part_002` lines 232-300): availability gate,
nil-request guard, DB liveness, nil-user guard, `validateUUID`, per-uuid
exclusive lock, `checkUserExists`, `getUserRow`, then `updateUserApply`. -/
def UpdateUser (env : Env) (req : Option UserRequest) (st : Store) : RpcResult :=
  if !env.stateAvailable then fail .unavailable .errServiceUnavailable st []
  else
    match req with
    | none => fail .invalidArgument .errNilRequestUser st []
    | some r =>
      if !env.dbOk then fail .unknown .dbConnectionFailure st []
      else
        match r.user with
        | none => fail .invalidArgument .errNilRequestUser st []
        | some svcDerivedUser =>
          match validateUUID svcDerivedUser.uuid with
          | some e => fail .invalidArgument e st []
          | none =>
            let evs := [Event.lockExclusive svcDerivedUser.uuid]
            match checkUserExists st svcDerivedUser.uuid with
            | .error e => fail .internal e st (evs ++ [.lockEvicted svcDerivedUser.uuid])
            | .ok false => fail .notFound .errDoesNotExistUUID st evs
            | .ok true =>
              match getUserRow st svcDerivedUser.uuid with
              | .error e => fail .internal e st evs
              | .ok none => fail .internal .errDoesNotExistUUID st evs
              | .ok (some dbDerivedUser) =>
                updateUserApply env st svcDerivedUser dbDerivedUser

/-- Modelled from the spec: the `VerifyEmailToken` operation's
implementation is not among the sources under verification (only its
unit test is), so this follows §4.4 of the specification verbatim:

1. fail `InvalidArgument` when no request/identification/token is
   supplied;
2. fail `Internal` when no email-token row matches;
3. when `now > expiration`: delete the token row; if the owning account
   is unverified, cascade-delete the account (and with it its remaining
   token rows); if it is verified, clear only the prospective-email; in
   both sub-cases fail `DeadlineExceeded`;
4. otherwise mark the account verified, promote a set prospective-email
   to the committed email, delete the consumed token, and succeed.

This first definition is the expired branch (step 3): the token row is
deleted in every sub-case (tokens only shrink by the filters below),
then the owning account is either cascade-deleted (unverified) or kept
with only its prospective-email cleared (verified). -/
def verifyEmailTokenExpired (st : Store) (tk : String) (row : EmailTokenRow) : RpcResult :=
  match st.accounts.find? (fun a => a.uuid == row.uuid) with
  | some acct =>
    if !acct.isVerified then
      fail .deadlineExceeded .errExpiredEmailToken
        { st with
          accounts := st.accounts.filter (fun a => a.uuid != row.uuid),
          emailTokens := (st.emailTokens.filter (fun q => q.token != tk)).filter
            (fun q => q.uuid != row.uuid) }
        [Event.deleteAccount row.uuid]
    else
      fail .deadlineExceeded .errExpiredEmailToken
        { st with
          accounts := st.accounts.map (fun a =>
            if a.uuid == row.uuid then { a with prospectiveEmail := "" } else a),
          emailTokens := st.emailTokens.filter (fun q => q.token != tk) }
        [Event.updateAccount row.uuid]
  | none =>
    fail .deadlineExceeded .errExpiredEmailToken
      { st with emailTokens := st.emailTokens.filter (fun q => q.token != tk) } []

/-- The non-expired branch of the spec-modelled `VerifyEmailToken`:
mark the account verified, promote a set prospective-email, delete the
consumed token, succeed. -/
def verifyEmailTokenSuccess (st : Store) (tk : String) (row : EmailTokenRow) : RpcResult :=
  ⟨some ⟨.ok, "OK", none⟩, none,
    { st with
      accounts := st.accounts.map (fun a =>
        if a.uuid == row.uuid then
          { a with
            isVerified := true,
            email := if a.prospectiveEmail ≠ "" then a.prospectiveEmail else a.email,
            prospectiveEmail := "" }
        else a),
      emailTokens := st.emailTokens.filter (fun q => q.token != tk) },
    [Event.updateAccount row.uuid]⟩

/-- Modelled from the spec (continued): the dispatch of
`VerifyEmailToken` over its guard conditions. -/
def VerifyEmailToken (env : Env) (req : Option UserRequest) (st : Store) : RpcResult :=
  match req with
  | none => fail .invalidArgument .errNilRequestUser st []
  | some r =>
    match r.identification with
    | none => fail .invalidArgument .errNilRequestIdentification st []
    | some ident =>
      if ident.token = "" then fail .invalidArgument .errEmptyToken st []
      else
        match st.emailTokens.find? (fun row => row.token == ident.token) with
        | none => fail .internal .errNoMatchingEmailTokenFound st []
        | some row =>
          if env.now > row.expiration then verifyEmailTokenExpired st ident.token row
          else verifyEmailTokenSuccess st ident.token row

/-! ## Lock-mode and response-shape facts (C4, C5) -/

/-- Is this event a shared-mode (`RLock`) acquisition? -/
def Event.isLockShared : Event → Bool
  | .lockShared _ => true
  | _ => false

/-- Is this event a store mutation? -/
def Event.isMutation : Event → Bool
  | .insertAccount _ => true
  | .insertEmailToken _ => true
  | .deleteAccount _ => true
  | .updateAccount _ => true
  | _ => false

/-- A concrete valid lower-case ULID (the canonical encoding of 0). -/
def demoUuid : String := "00000000000000000000000000"

/-- A second concrete valid lower-case ULID (the canonical encoding of 1). -/
def demoUuid2 : String := "00000000000000000000000001"

/-- A one-account store used by concrete runs. -/
def demoStore : Store :=
  { accounts := [⟨demoUuid, "Lisa", "Kim", "lisa@test.com", "digest", "uwb", 0, false, ""⟩] }

/-! ## Validation failures have no side effects (C6) -/

/-- The input conditions under which `CreateUser` fails validation: a
nil request, a nil user object, or a field rejected by `validateUser`. -/
def createValidationFails (req : Option UserRequest) : Bool :=
  match req with
  | none => true
  | some r =>
    match r.user with
    | none => true
    | some u => (validateUser (some u)).isSome

/-- The input conditions under which `DeleteUser`/`GetUser`/`UpdateUser`
fail validation: a nil request, a nil user object, or a malformed
identifier rejected by `validateUUID`. -/
def uuidValidationFails (req : Option UserRequest) : Bool :=
  match req with
  | none => true
  | some r =>
    match r.user with
    | none => true
    | some u => (validateUUID u.uuid).isSome

/-- Oracle for the concrete rollback run: ULID `"u1"`, email token
`"t1"`, and a failing pending-token insert. -/
def rollbackEnv : Env :=
  { uuidResult := some "u1", emailTokenResult := some "t1", insertTokenOk := false }

/-- A concrete field-valid user. -/
def demoUser : User :=
  { firstName := "Lisa", lastName := "Kim", email := "lisa@test.com",
    password := "Secret1", organization := "uwb" }

/-- Oracle for the first concrete duplicate-email run. -/
def firstCreateEnv : Env := { uuidResult := some "u1", emailTokenResult := some "t1" }

/-- Oracle for the second concrete duplicate-email run. -/
def secondCreateEnv : Env := { uuidResult := some "u2", emailTokenResult := some "t2" }

/-- Store for the concrete expired-token run: an unverified account
(`demoUuid`) and a verified account with a pending prospective email
(`demoUuid2`), each with an email token that expired at time 5. -/
def expiredStore : Store :=
  { accounts :=
      [⟨demoUuid, "Lisa", "Kim", "lisa@test.com", "digest", "uwb", 0, false, ""⟩,
       ⟨demoUuid2, "Ann", "Lee", "ann@test.com", "digest", "uwb", 0, true, "new@test.com"⟩],
    emailTokens := [⟨"t1", demoUuid, 0, 5⟩, ⟨"t2", demoUuid2, 0, 5⟩] }

/-- Clock for the concrete expired-token run (time 10 > expiration 5). -/
def expiredEnv : Env := { now := 10 }

/-! ## Theorems -/

/-- Model of `nextMondayBoundary` really is the next boundary: it is a boundary,
it is strictly after `u`, and no boundary lies strictly between. -/
theorem nextMondayBoundary_spec (u : Int) :
    isMondayBoundary (nextMondayBoundary u) = true ∧
    u < nextMondayBoundary u ∧
    ∀ v : Int, isMondayBoundary v = true → u < v → nextMondayBoundary u ≤ v := by
  refine ⟨?_, ?_, ?_⟩
  · simp only [isMondayBoundary, nextMondayBoundary, decide_eq_true_eq]
    omega
  · simp only [nextMondayBoundary]
    omega
  · intro v hv huv
    simp only [isMondayBoundary, decide_eq_true_eq] at hv
    simp only [nextMondayBoundary]
    omega

/-- C1 (amended): for every non-zero input carrying the UTC location,
`generateSecretExpirationDate` returns a Monday-03:00-UTC instant
strictly after the input; it is the *next* such boundary unless the
input falls on a Monday strictly before 03:00 UTC, in which case it is
one week later than the next boundary (the same-day boundary is
skipped). -/
theorem generateSecretExpirationDate_utc_spec (t : GoTime)
    (hoff : t.offset = 0) (hnz : t.unix ≠ goZeroUnix) :
    ∃ r : GoTime, generateSecretExpirationDate t = some r ∧
      r.offset = 0 ∧
      isMondayBoundary r.unix = true ∧
      t.unix < r.unix ∧
      (mondayBefore3am t.unix = true →
        r.unix = nextMondayBoundary t.unix + 604800) ∧
      (mondayBefore3am t.unix = false →
        r.unix = nextMondayBoundary t.unix) := by
  have hz : t.isZero = false := by
    simp only [GoTime.isZero, Bool.and_eq_false_iff, decide_eq_false_iff_not]
    exact Or.inl hnz
  refine ⟨⟨(t.unix + ((daysInWeek - (t.unix / 86400 + 4) % 7) % daysInWeek + 1) * 86400
      + t.offset) / 86400 * 86400 + 3 * 3600, 0⟩, ?_, rfl, ?_, ?_, ?_, ?_⟩
  · simp [generateSecretExpirationDate, hz]
  · simp only [isMondayBoundary, daysInWeek, hoff, decide_eq_true_eq]
    omega
  · simp only [daysInWeek, hoff]
    omega
  · intro h
    simp only [mondayBefore3am, Bool.and_eq_true, decide_eq_true_eq] at h
    simp only [daysInWeek, nextMondayBoundary, hoff]
    omega
  · intro h
    simp only [mondayBefore3am, Bool.and_eq_false_iff, decide_eq_false_iff_not] at h
    simp only [daysInWeek, nextMondayBoundary, hoff]
    omega

/-- Witness for `generateSecretExpirationDate_utc_spec`: evaluated at
2019-01-09 12:00:00 UTC (a Wednesday), the function returns
2019-01-14 03:00:00 UTC, the next Monday boundary. -/
theorem generateSecretExpirationDate_utc_spec_witness :
    (GoTime.mk 1547035200 0).offset = 0 ∧ (GoTime.mk 1547035200 0).unix ≠ goZeroUnix ∧
    (∃ r : GoTime, generateSecretExpirationDate ⟨1547035200, 0⟩ = some r ∧
      r.offset = 0 ∧
      isMondayBoundary r.unix = true ∧
      (1547035200 : Int) < r.unix ∧
      (mondayBefore3am 1547035200 = true →
        r.unix = nextMondayBoundary 1547035200 + 604800) ∧
      (mondayBefore3am 1547035200 = false →
        r.unix = nextMondayBoundary 1547035200)) :=
  ⟨rfl, by decide,
    generateSecretExpirationDate_utc_spec ⟨1547035200, 0⟩ rfl (by decide)⟩

/-- C1 counterexample: at 2019-01-07 01:00:00 UTC — a Monday, before
03:00 UTC — the next Monday-03:00-UTC boundary strictly after the input
is the same day's 03:00 (1546830000 = 2019-01-07 03:00:00 UTC), but
`generateSecretExpirationDate` skips it and returns 2019-01-14
03:00:00 UTC instead, contradicting the claim that the result is always
the boundary strictly next after the input. -/
theorem generateSecretExpirationDate_monday_counterexample :
    generateSecretExpirationDate ⟨1546822800, 0⟩ = some ⟨1547434800, 0⟩ ∧
    nextMondayBoundary 1546822800 = 1546830000 ∧
    isMondayBoundary 1546830000 = true ∧
    (1547434800 : Int) ≠ 1546830000 := by
  refine ⟨?_, by decide, by decide, by decide⟩
  simp [generateSecretExpirationDate, GoTime.isZero, goZeroUnix, daysInWeek]

/-! ### Round-trip facts about the ULID base-32 coding -/

theorem charToDigitAux_spec (l : List Char) (i : Nat) (c : Char) (d : Nat)
    (h : charToDigitAux l i c = some d) :
    ∃ j, j < l.length ∧ d = i + j ∧ l.getD j '0' = c := by
  induction l generalizing i with
  | nil => exact Option.noConfusion h
  | cons a rest ih =>
    simp only [charToDigitAux] at h
    split at h
    · refine ⟨0, by simp, ?_, ?_⟩
      · injection h with h; omega
      · simp_all
    · obtain ⟨j, hj, hd, hc⟩ := ih (i + 1) h
      exact ⟨j + 1, by simpa using hj, by omega, by simpa using hc⟩

theorem charToDigit_lt (c : Char) (d : Nat) (h : charToDigit c = some d) : d < 32 := by
  obtain ⟨j, hj, hd, _⟩ := charToDigitAux_spec _ _ _ _ h
  simp only [crockfordChars, List.length] at hj
  omega

theorem charToDigit_le7 (c : Char) (d : Nat) (h : charToDigit c = some d)
    (hle : ¬ c > '7') : d ≤ 7 := by
  obtain ⟨j, hj, hd, hc⟩ := charToDigitAux_spec _ _ _ _ h
  simp only [crockfordChars, List.length] at hj
  by_contra hgt
  have h8 : ∀ j : Nat, j < 32 → 8 ≤ j → crockfordChars.getD j '0' > '7' := by decide
  exact hle (hc ▸ h8 j hj (by omega))

theorem charToDigit_digitToChar (d : Nat) (h : d < 32) :
    charToDigit (digitToChar d) = some d := by
  interval_cases d <;> decide

theorem digit_le7_char (d : Nat) (h : d ≤ 7) : ¬ digitToChar d > '7' := by
  interval_cases d <;> decide

theorem digit_lower_upper (d : Nat) (h : d < 32) :
    (Char.toLower (digitToChar d)).toUpper = digitToChar d := by
  interval_cases d <;> decide

theorem digit_lower_not_upper (d : Nat) (h : d < 32) :
    (Char.toLower (digitToChar d)).isUpper = false := by
  interval_cases d <;> decide

theorem encodeDigits_length (k n : Nat) : (encodeDigits k n).length = k := by
  induction k generalizing n with
  | zero => rfl
  | succ k ih => simp [encodeDigits, ih]

theorem encodeDigits_lt (k n : Nat) (hn : n < 32 ^ k) :
    ∀ d ∈ encodeDigits k n, d < 32 := by
  induction k generalizing n with
  | zero => simp [encodeDigits]
  | succ k ih =>
    intro d hd
    simp only [encodeDigits, List.mem_cons] at hd
    rcases hd with hd | hd
    · subst hd
      have := Nat.pow_succ 32 k ▸ hn
      exact Nat.div_lt_of_lt_mul (by omega)
    · exact ih (n % 32 ^ k) (Nat.mod_lt _ (Nat.pos_pow_of_pos k (by omega))) d hd

theorem decodeDigits_foldl (l : List Nat) (a : Nat) :
    l.foldl (fun acc d => acc * 32 + d) a = a * 32 ^ l.length + decodeDigits l := by
  induction l generalizing a with
  | nil => simp [decodeDigits]
  | cons d t ih =>
    simp only [decodeDigits, List.foldl, List.length_cons, Nat.zero_mul, Nat.zero_add]
    rw [ih (a * 32 + d), ih d]
    ring

theorem decodeDigits_cons (d : Nat) (l : List Nat) :
    decodeDigits (d :: l) = d * 32 ^ l.length + decodeDigits l := by
  simp only [decodeDigits, List.foldl]
  simpa using decodeDigits_foldl l d

theorem decodeDigits_lt (l : List Nat) (h : ∀ d ∈ l, d < 32) :
    decodeDigits l < 32 ^ l.length := by
  induction l with
  | nil => simp [decodeDigits]
  | cons d t ih =>
    rw [decodeDigits_cons]
    have hd : d < 32 := h d (by simp)
    have ht : decodeDigits t < 32 ^ t.length := ih (fun x hx => h x (by simp [hx]))
    have : (d + 1) * 32 ^ t.length ≤ 32 * 32 ^ t.length :=
      Nat.mul_le_mul_right _ (by omega)
    calc d * 32 ^ t.length + decodeDigits t < (d + 1) * 32 ^ t.length := by
          rw [Nat.add_mul, Nat.one_mul]; omega
      _ ≤ 32 ^ (t.length + 1) := by rw [Nat.pow_succ]; omega
      _ = 32 ^ (d :: t).length := by simp

theorem decode_encode (k n : Nat) : decodeDigits (encodeDigits (k + 1) n) = n := by
  induction k generalizing n with
  | zero => simp [encodeDigits, decodeDigits]
  | succ k ih =>
    have : encodeDigits (k + 1 + 1) n
        = n / 32 ^ (k + 1) :: encodeDigits (k + 1) (n % 32 ^ (k + 1)) := rfl
    rw [this, decodeDigits_cons, encodeDigits_length, ih, Nat.mul_comm]
    exact Nat.div_add_mod n (32 ^ (k + 1))

theorem mapM_map_digitToChar (l : List Nat) (h : ∀ d ∈ l, d < 32) :
    (l.map digitToChar).mapM charToDigit = some l := by
  induction l with
  | nil => rfl
  | cons d t ih =>
    have hd : d < 32 := h d (by simp)
    have ht := ih (fun x hx => h x (by simp [hx]))
    rw [List.map_cons, List.mapM_cons, charToDigit_digitToChar d hd, ht]
    rfl

theorem mapM_charToDigit_inv (l : List Char) (ds : List Nat)
    (h : l.mapM charToDigit = some ds) :
    ds.length = l.length ∧ ∀ d ∈ ds, d < 32 := by
  induction l generalizing ds with
  | nil =>
    rw [List.mapM_nil] at h
    injection h with h
    subst h
    simp
  | cons c cs ih =>
    rw [List.mapM_cons] at h
    cases hc : charToDigit c with
    | none => rw [hc] at h; exact Option.noConfusion h
    | some d =>
      rw [hc] at h
      cases hcs : cs.mapM charToDigit with
      | none => rw [hcs] at h; exact Option.noConfusion h
      | some ds' =>
        rw [hcs] at h
        injection h with h
        subst h
        obtain ⟨hlen, hall⟩ := ih ds' hcs
        refine ⟨by simp [hlen], ?_⟩
        intro x hx
        rcases List.mem_cons.mp hx with hx | hx
        · exact hx ▸ charToDigit_lt c d hc
        · exact hall x hx

theorem mapM_charToDigit_cons_inv (c : Char) (cs : List Char) (ds : List Nat)
    (h : (c :: cs).mapM charToDigit = some ds) :
    ∃ d ds', ds = d :: ds' ∧ charToDigit c = some d ∧ cs.mapM charToDigit = some ds' := by
  rw [List.mapM_cons] at h
  cases hc : charToDigit c with
  | none => rw [hc] at h; exact Option.noConfusion h
  | some d =>
    rw [hc] at h
    cases hcs : cs.mapM charToDigit with
    | none => rw [hcs] at h; exact Option.noConfusion h
    | some ds' =>
      rw [hcs] at h
      injection h with h
      exact ⟨d, ds', h.symm, rfl, rfl⟩

theorem ulidParseStrict_ok_lt (s : String) (m : Nat)
    (h : ulidParseStrict s = .ok m) : m < 2 ^ 128 := by
  unfold ulidParseStrict at h
  split at h
  · exact Except.noConfusion h
  · rename_i hlen
    split at h
    · exact Except.noConfusion h
    · rename_i ds hds
      split at h
      · exact Except.noConfusion h
      · rename_i hhead
        injection h with h
        subst h
        have hlen26 : s.data.length = 26 := by omega
        cases hs : s.data with
        | nil => rw [hs] at hlen26; simp at hlen26
        | cons c0 cs =>
          rw [hs] at hds hlen26 hhead
          obtain ⟨d0, ds', hds', hc0, hcs⟩ := mapM_charToDigit_cons_inv c0 cs ds hds
          subst hds'
          obtain ⟨hlen', hall'⟩ := mapM_charToDigit_inv cs ds' hcs
          have hd0 : d0 ≤ 7 := by
            refine charToDigit_le7 c0 d0 hc0 ?_
            simpa using hhead
          have hlast : decodeDigits ds' < 32 ^ ds'.length :=
            decodeDigits_lt ds' hall'
          have hlen25 : ds'.length = 25 := by
            simp only [List.length_cons] at hlen26
            omega
          rw [decodeDigits_cons, hlen25]
          rw [hlen25] at hlast
          have h8 : (8 : Nat) * 32 ^ 25 = 2 ^ 128 := by norm_num
          calc d0 * 32 ^ 25 + decodeDigits ds' < (d0 + 1) * 32 ^ 25 := by
                rw [Nat.add_mul, Nat.one_mul]; omega
            _ ≤ 8 * 32 ^ 25 := Nat.mul_le_mul_right _ (by omega)
            _ = 2 ^ 128 := h8

theorem validateUUID_none_inv (u : String) (h : validateUUID u = none) :
    ∃ m : Nat, m < 2 ^ 128 ∧ u = toLowerStr (ulidString m) := by
  unfold validateUUID at h
  split at h
  · exact Option.noConfusion h
  · split at h
    · exact Option.noConfusion h
    · exact Option.noConfusion h
    · rename_i m hm
      split at h
      · exact Option.noConfusion h
      · rename_i hcond
        refine ⟨m, ulidParseStrict_ok_lt _ m hm, ?_⟩
        by_contra hne
        exact hcond (fun he => hne he.symm)

theorem ulidString_data (id : Nat) :
    (ulidString id).data = (encodeDigits 26 id).map digitToChar := rfl

theorem ulidParseStrict_ulidString (id : Nat) (hid : id < 2 ^ 128) :
    ulidParseStrict (ulidString id) = .ok id := by
  have hdig : ∀ d ∈ encodeDigits 26 id, d < 32 :=
    encodeDigits_lt 26 id (lt_of_lt_of_le hid (by norm_num))
  have hd0 : id / 32 ^ 25 ≤ 7 := by
    have h8 : id < 8 * 32 ^ 25 := lt_of_lt_of_le hid (by norm_num)
    have := (Nat.div_lt_iff_lt_mul (show 0 < 32 ^ 25 by positivity)).mpr
      (by omega : id < 8 * 32 ^ 25)
    omega
  have hcons : encodeDigits 26 id = id / 32 ^ 25 :: encodeDigits 25 (id % 32 ^ 25) := rfl
  have hdec : decodeDigits (encodeDigits 26 id) = id := decode_encode 25 id
  unfold ulidParseStrict
  rw [ulidString_data, List.length_map, encodeDigits_length]
  rw [if_neg (by omega)]
  rw [mapM_map_digitToChar _ hdig]
  rw [hcons, List.map_cons, List.headD_cons]
  show (if digitToChar (id / 32 ^ 25) > '7' then Except.error UlidParseError.overflow
    else Except.ok (decodeDigits (id / 32 ^ 25 :: encodeDigits 25 (id % 32 ^ 25))))
    = Except.ok id
  rw [if_neg (digit_le7_char _ hd0)]
  rw [← hcons, hdec]

theorem generateUUID_ne_empty (id : Nat) : ¬ generateUUID id = "" := by
  intro h
  have := congrArg (fun s : String => s.data.length) h
  simp only [generateUUID, toLowerStr, ulidString, List.length_map,
    encodeDigits_length] at this
  simp at this

theorem toUpperStr_generateUUID (id : Nat) (hid : id < 2 ^ 128) :
    toUpperStr (generateUUID id) = ulidString id := by
  have hdig : ∀ d ∈ encodeDigits 26 id, d < 32 :=
    encodeDigits_lt 26 id (lt_of_lt_of_le hid (by norm_num))
  show String.mk _ = String.mk _
  congr 1
  simp only [generateUUID, toLowerStr, ulidString_data, List.map_map]
  exact List.map_congr_left (fun d hd => digit_lower_upper d (hdig d hd))

theorem validateUUID_generateUUID (id : Nat) (hid : id < 2 ^ 128) :
    validateUUID (generateUUID id) = none := by
  unfold validateUUID
  rw [if_neg (generateUUID_ne_empty id), toUpperStr_generateUUID id hid,
    ulidParseStrict_ulidString id hid]
  show (if toLowerStr (ulidString id) ≠ generateUUID id then some SvcError.errInvalidUUID
    else none) = none
  rw [if_neg (fun hcontra => hcontra rfl)]

theorem validateUUID_uppercase (u : String) (c : Char) (hc : c ∈ u.data)
    (hup : c.isUpper = true) : validateUUID u ≠ none := by
  intro h
  obtain ⟨m, hm, hu⟩ := validateUUID_none_inv u h
  subst hu
  simp only [toLowerStr, ulidString_data, List.map_map, List.mem_map] at hc
  obtain ⟨d, hd, hcd⟩ := hc
  have hd32 : d < 32 := encodeDigits_lt 26 m (lt_of_lt_of_le hm (by norm_num)) d hd
  have := digit_lower_not_upper d hd32
  rw [show (Char.toLower ∘ digitToChar) d = Char.toLower (digitToChar d) from rfl] at hcd
  rw [hcd] at this
  rw [hup] at this
  exact Bool.noConfusion this

/-- C9: `generateUUID` and `validateUUID` are inverse in the sense that
every generated identifier validates; moreover `validateUUID` accepts
*only* strings that equal the lower-cased canonical 26-character ULID
encoding of some 128-bit value, so any string containing an upper-case
letter (in particular the canonical upper-case ULID encoding whenever it
contains a letter) is rejected. -/
theorem generateUUID_validateUUID_roundtrip (id : Nat) (hid : id < 2 ^ 128) :
    validateUUID (generateUUID id) = none ∧
    (∀ u : String, validateUUID u = none →
      ∃ m : Nat, m < 2 ^ 128 ∧ u = toLowerStr (ulidString m)) ∧
    (∀ u : String, (∃ c ∈ u.data, c.isUpper = true) → validateUUID u ≠ none) :=
  ⟨validateUUID_generateUUID id hid,
   fun u h => validateUUID_none_inv u h,
   fun u ⟨c, hc, hup⟩ => validateUUID_uppercase u c hc hup⟩

/-- Witness for `generateUUID_validateUUID_roundtrip` at the concrete
128-bit value 1. -/
theorem generateUUID_validateUUID_roundtrip_witness :
    1 < 2 ^ 128 ∧
    (validateUUID (generateUUID 1) = none ∧
    (∀ u : String, validateUUID u = none →
      ∃ m : Nat, m < 2 ^ 128 ∧ u = toLowerStr (ulidString m)) ∧
    (∀ u : String, (∃ c ∈ u.data, c.isUpper = true) → validateUUID u ≠ none)) :=
  ⟨by norm_num, generateUUID_validateUUID_roundtrip 1 (by norm_num)⟩

theorem createUserFinish_no_shared_lock (env : Env) (st2 : Store) (uuid email : String)
    (evs : List Event) (h : evs.all (fun e => !e.isLockShared) = true) :
    (createUserFinish env st2 uuid email evs).events.all (fun e => !e.isLockShared) = true := by
  unfold createUserFinish
  repeat' split
  all_goals simp_all [fail, Event.isLockShared, List.all_append]

theorem createUserInsertToken_no_shared_lock (env : Env) (st1 : Store) (uuid email : String) :
    (createUserInsertToken env st1 uuid email).events.all (fun e => !e.isLockShared) = true := by
  unfold createUserInsertToken
  repeat' split
  · simp [fail, Event.isLockShared]
  · simp [fail, Event.isLockShared]
  · simp [fail, Event.isLockShared]
  · exact createUserFinish_no_shared_lock env _ uuid email _ (by simp [Event.isLockShared])

theorem createUserInsert_no_shared_lock (env : Env) (st : Store) (user : User) :
    (createUserInsert env st user).events.all (fun e => !e.isLockShared) = true := by
  unfold createUserInsert
  repeat' split
  · simp [fail, Event.isLockShared]
  · exact createUserInsertToken_no_shared_lock env _ user.uuid user.email

theorem createUserLocked_no_shared_lock (env : Env) (st : Store) (user : User) :
    (createUserLocked env st user).events.all (fun e => !e.isLockShared) = true := by
  unfold createUserLocked
  repeat' split
  · simp [fail, Event.isLockShared]
  · exact createUserInsert_no_shared_lock env st _

theorem createUser_no_shared_lock (env : Env) (req : Option UserRequest) (st : Store) :
    (CreateUser env req st).events.all (fun e => !e.isLockShared) = true := by
  unfold CreateUser
  repeat' split
  all_goals first
    | exact createUserLocked_no_shared_lock env st _
    | simp [fail, Event.isLockShared]

theorem deleteUser_no_shared_lock (env : Env) (req : Option UserRequest) (st : Store) :
    (DeleteUser env req st).events.all (fun e => !e.isLockShared) = true := by
  unfold DeleteUser
  repeat' split
  all_goals simp [fail, Event.isLockShared, List.all_append]

theorem getUser_no_shared_lock (env : Env) (req : Option UserRequest) (st : Store) :
    (GetUser env req st).events.all (fun e => !e.isLockShared) = true := by
  unfold GetUser
  repeat' split
  all_goals simp [fail, Event.isLockShared, List.all_append]

theorem updateUserApply_no_shared_lock (env : Env) (st : Store) (svcUser dbUser : User) :
    (updateUserApply env st svcUser dbUser).events.all (fun e => !e.isLockShared) = true := by
  unfold updateUserApply
  repeat' split
  all_goals simp [fail, Event.isLockShared]

theorem updateUser_no_shared_lock (env : Env) (req : Option UserRequest) (st : Store) :
    (UpdateUser env req st).events.all (fun e => !e.isLockShared) = true := by
  unfold UpdateUser
  repeat' split
  all_goals first
    | exact updateUserApply_no_shared_lock env st _ _
    | simp [fail, Event.isLockShared, List.all_append]

/-- C4 (amended): every one of the four account operations acquires the
per-identity lock in exclusive (`Lock`) mode — no operation ever takes
the shared (`RLock`) mode, and in particular `GetUser`, claimed to be a
shared-mode reader, acquires the exclusive lock (its line 347 calls
`lock.(*sync.RWMutex).Lock()`), so concurrent `GetUser` calls on the
same identifier serialize rather than proceeding in parallel. -/
theorem all_operations_lock_exclusively (env : Env) (req : Option UserRequest) (st : Store) :
    ((CreateUser env req st).events.all (fun e => !e.isLockShared) = true) ∧
    ((DeleteUser env req st).events.all (fun e => !e.isLockShared) = true) ∧
    ((UpdateUser env req st).events.all (fun e => !e.isLockShared) = true) ∧
    ((GetUser env req st).events.all (fun e => !e.isLockShared) = true) ∧
    (GetUser { } (some ⟨some { uuid := demoUuid }, none⟩) demoStore).events
      = [Event.lockExclusive demoUuid] :=
  ⟨createUser_no_shared_lock env req st,
   deleteUser_no_shared_lock env req st,
   updateUser_no_shared_lock env req st,
   getUser_no_shared_lock env req st,
   by decide⟩

/-- C4 counterexample: a concrete successful `GetUser` call acquires
the exclusive lock and never the shared lock, refuting the claim that
the read path takes the per-identity lock in shared (reader) mode. -/
theorem getUser_shared_lock_counterexample :
    (GetUser { } (some ⟨some { uuid := demoUuid }, none⟩) demoStore).response.isSome = true ∧
    (GetUser { } (some ⟨some { uuid := demoUuid }, none⟩) demoStore).events.contains
      (Event.lockExclusive demoUuid) = true ∧
    (GetUser { } (some ⟨some { uuid := demoUuid }, none⟩) demoStore).events.contains
      (Event.lockShared demoUuid) = false := by
  decide

/-! ## Response/error exclusivity (C5) -/

theorem createUserFinish_outcome (env : Env) (st2 : Store) (uuid email : String)
    (evs : List Event) :
    (createUserFinish env st2 uuid email evs).response.isNone
      = (createUserFinish env st2 uuid email evs).error.isSome := by
  unfold createUserFinish
  repeat' split
  all_goals simp [fail]

theorem createUserInsertToken_outcome (env : Env) (st1 : Store) (uuid email : String) :
    (createUserInsertToken env st1 uuid email).response.isNone
      = (createUserInsertToken env st1 uuid email).error.isSome := by
  unfold createUserInsertToken
  repeat' split
  all_goals first
    | exact createUserFinish_outcome env _ uuid email _
    | simp [fail]

theorem createUserInsert_outcome (env : Env) (st : Store) (user : User) :
    (createUserInsert env st user).response.isNone
      = (createUserInsert env st user).error.isSome := by
  unfold createUserInsert
  repeat' split
  all_goals first
    | exact createUserInsertToken_outcome env _ user.uuid user.email
    | simp [fail]

theorem createUserLocked_outcome (env : Env) (st : Store) (user : User) :
    (createUserLocked env st user).response.isNone
      = (createUserLocked env st user).error.isSome := by
  unfold createUserLocked
  repeat' split
  all_goals first
    | exact createUserInsert_outcome env st _
    | simp [fail]

theorem createUser_outcome (env : Env) (req : Option UserRequest) (st : Store) :
    (CreateUser env req st).response.isNone = (CreateUser env req st).error.isSome := by
  unfold CreateUser
  repeat' split
  all_goals first
    | exact createUserLocked_outcome env st _
    | simp [fail]

theorem deleteUser_outcome (env : Env) (req : Option UserRequest) (st : Store) :
    (DeleteUser env req st).response.isNone = (DeleteUser env req st).error.isSome := by
  unfold DeleteUser
  repeat' split
  all_goals simp [fail]

theorem getUser_outcome (env : Env) (req : Option UserRequest) (st : Store) :
    (GetUser env req st).response.isNone = (GetUser env req st).error.isSome := by
  unfold GetUser
  repeat' split
  all_goals simp [fail]

theorem updateUserApply_outcome (env : Env) (st : Store) (svcUser dbUser : User) :
    (updateUserApply env st svcUser dbUser).response.isNone
      = (updateUserApply env st svcUser dbUser).error.isSome := by
  unfold updateUserApply
  repeat' split
  all_goals simp [fail]

theorem updateUser_outcome (env : Env) (req : Option UserRequest) (st : Store) :
    (UpdateUser env req st).response.isNone = (UpdateUser env req st).error.isSome := by
  unfold UpdateUser
  repeat' split
  all_goals first
    | exact updateUserApply_outcome env st _ _
    | simp [fail]

theorem verifyEmailTokenExpired_outcome (st : Store) (tk : String) (row : EmailTokenRow) :
    (verifyEmailTokenExpired st tk row).response.isNone
      = (verifyEmailTokenExpired st tk row).error.isSome := by
  unfold verifyEmailTokenExpired
  repeat' split
  all_goals simp [fail]

theorem verifyEmailToken_outcome (env : Env) (req : Option UserRequest) (st : Store) :
    (VerifyEmailToken env req st).response.isNone
      = (VerifyEmailToken env req st).error.isSome := by
  unfold VerifyEmailToken
  repeat' split
  all_goals first
    | exact verifyEmailTokenExpired_outcome st _ _
    | simp [fail, verifyEmailTokenSuccess]

/-- C5 (amended): on every failing call of the account and email-token
operations the response is `nil` and the failure is a non-`nil` status
error (response and error are mutually exclusive); `GetStatus` is the
exception: it *always* returns a non-`nil` response with a `nil` error,
reporting unavailability inside the response object instead of through
an error. -/
theorem failing_calls_return_nil_response (env : Env) (req : Option UserRequest) (st : Store) :
    ((CreateUser env req st).response.isNone = (CreateUser env req st).error.isSome) ∧
    ((DeleteUser env req st).response.isNone = (DeleteUser env req st).error.isSome) ∧
    ((UpdateUser env req st).response.isNone = (UpdateUser env req st).error.isSome) ∧
    ((GetUser env req st).response.isNone = (GetUser env req st).error.isSome) ∧
    ((VerifyEmailToken env req st).response.isNone
      = (VerifyEmailToken env req st).error.isSome) ∧
    ((GetStatus env).1.isSome = true ∧ (GetStatus env).2 = none) :=
  ⟨createUser_outcome env req st,
   deleteUser_outcome env req st,
   updateUser_outcome env req st,
   getUser_outcome env req st,
   verifyEmailToken_outcome env req st,
   by unfold GetStatus; repeat' split; all_goals simp⟩

/-- C5 counterexample: with the service marked unavailable — a failure
condition of `GetStatus` per the interface table — `GetStatus` returns
the non-`nil` `responseServiceUnavailable` object together with a `nil`
error, so the failure path does *not* return a `nil` response with a
non-`nil` status error as claimed. -/
theorem getStatus_unavailable_counterexample :
    GetStatus { stateAvailable := false } = (some responseServiceUnavailable, none) ∧
    some responseServiceUnavailable ≠ (none : Option UserResponse) := by
  decide

theorem createUser_validation_failure (env : Env) (req : Option UserRequest) (st : Store)
    (h : createValidationFails req = true) :
    (CreateUser env req st).error.isSome = true ∧
    (CreateUser env req st).store = st ∧
    (CreateUser env req st).events.all (fun e => !e.isMutation) = true := by
  unfold CreateUser
  repeat' split
  all_goals simp_all [createValidationFails, fail, Event.isMutation]

theorem deleteUser_validation_failure (env : Env) (req : Option UserRequest) (st : Store)
    (h : uuidValidationFails req = true) :
    (DeleteUser env req st).error.isSome = true ∧
    (DeleteUser env req st).store = st ∧
    (DeleteUser env req st).events.all (fun e => !e.isMutation) = true := by
  unfold DeleteUser
  repeat' split
  all_goals simp_all [uuidValidationFails, fail, Event.isMutation]

theorem getUser_validation_failure (env : Env) (req : Option UserRequest) (st : Store)
    (h : uuidValidationFails req = true) :
    (GetUser env req st).error.isSome = true ∧
    (GetUser env req st).store = st ∧
    (GetUser env req st).events.all (fun e => !e.isMutation) = true := by
  unfold GetUser
  repeat' split
  all_goals simp_all [uuidValidationFails, fail, Event.isMutation]

theorem updateUser_validation_failure (env : Env) (req : Option UserRequest) (st : Store)
    (h : uuidValidationFails req = true) :
    (UpdateUser env req st).error.isSome = true ∧
    (UpdateUser env req st).store = st ∧
    (UpdateUser env req st).events.all (fun e => !e.isMutation) = true := by
  unfold UpdateUser
  repeat' split
  all_goals simp_all [uuidValidationFails, fail, Event.isMutation]

/-- C6: any `CreateUser`, `DeleteUser`, `GetUser`, or `UpdateUser` call
whose input fails validation (nil request, nil user object, invalid
field, malformed identifier) returns an error, leaves the store — the
account, auth-token, and email-token tables — exactly as it was, and
performs no store mutation. -/
theorem validation_failure_no_side_effects (env : Env) (req : Option UserRequest) (st : Store) :
    (createValidationFails req = true →
      (CreateUser env req st).error.isSome = true ∧
      (CreateUser env req st).store = st ∧
      (CreateUser env req st).events.all (fun e => !e.isMutation) = true) ∧
    (uuidValidationFails req = true →
      ((DeleteUser env req st).error.isSome = true ∧
       (DeleteUser env req st).store = st ∧
       (DeleteUser env req st).events.all (fun e => !e.isMutation) = true) ∧
      ((GetUser env req st).error.isSome = true ∧
       (GetUser env req st).store = st ∧
       (GetUser env req st).events.all (fun e => !e.isMutation) = true) ∧
      ((UpdateUser env req st).error.isSome = true ∧
       (UpdateUser env req st).store = st ∧
       (UpdateUser env req st).events.all (fun e => !e.isMutation) = true)) :=
  ⟨fun h => createUser_validation_failure env req st h,
   fun h => ⟨deleteUser_validation_failure env req st h,
             getUser_validation_failure env req st h,
             updateUser_validation_failure env req st h⟩⟩

/-- Witness for `validation_failure_no_side_effects`: the nil request
fails validation for all four operations and leaves `demoStore`
untouched. -/
theorem validation_failure_no_side_effects_witness :
    createValidationFails none = true ∧ uuidValidationFails none = true ∧
    ((CreateUser { } none demoStore).error.isSome = true ∧
     (CreateUser { } none demoStore).store = demoStore ∧
     (CreateUser { } none demoStore).events.all (fun e => !e.isMutation) = true) ∧
    (((DeleteUser { } none demoStore).error.isSome = true ∧
      (DeleteUser { } none demoStore).store = demoStore ∧
      (DeleteUser { } none demoStore).events.all (fun e => !e.isMutation) = true) ∧
     ((GetUser { } none demoStore).error.isSome = true ∧
      (GetUser { } none demoStore).store = demoStore ∧
      (GetUser { } none demoStore).events.all (fun e => !e.isMutation) = true) ∧
     ((UpdateUser { } none demoStore).error.isSome = true ∧
      (UpdateUser { } none demoStore).store = demoStore ∧
      (UpdateUser { } none demoStore).events.all (fun e => !e.isMutation) = true)) :=
  ⟨rfl, rfl,
   (validation_failure_no_side_effects { } none demoStore).1 rfl,
   (validation_failure_no_side_effects { } none demoStore).2 rfl⟩

/-! ## The compensating delete of `CreateUser` (C7) -/

theorem filter_ne_of_any_eq_false {α β : Type} [BEq β] (l : List α) (f : α → β) (b : β)
    (h : l.any (fun x => f x == b) = false) :
    l.filter (fun x => f x != b) = l := by
  induction l with
  | nil => rfl
  | cons a t ih =>
    simp only [List.any_cons, Bool.or_eq_false_iff] at h
    have hpa : (f a != b) = true := by simp [bne, h.1]
    rw [List.filter_cons, if_pos hpa, ih h.2]

/-- C7: when the account insert of `CreateUser` succeeds but the
email-token insert fails, the service issues a compensating delete of
the just-inserted account row and returns the token insert's error; if
the compensating delete succeeds the store is exactly as before the
call, and if the compensating delete itself fails, that failure is only
logged — the returned status still carries the token insert's error —
and the account row remains. -/
theorem createUser_token_insert_rollback
    (env : Env) (r : UserRequest) (st : Store) (u : User) (uuid token : String)
    (hsa : env.stateAvailable = true) (hdb : env.dbOk = true)
    (hu : r.user = some u)
    (hv : validateUser (some u) = none)
    (hid : env.uuidResult = some uuid)
    (hidne : uuid ≠ "")
    (hpne : u.password ≠ "")
    (htrim : goTrimSpace u.password = u.password)
    (hbc : env.bcryptOk = true)
    (hfreshU : st.accounts.any (fun a => a.uuid == uuid) = false)
    (hfreshE : st.accounts.any (fun a => a.email == u.email) = false)
    (hfreshT : st.emailTokens.any (fun q => q.uuid == uuid) = false)
    (htok : env.emailTokenResult = some token)
    (htokne : token ≠ "")
    (hins : env.insertTokenOk = false) :
    (CreateUser env (some r) st).response = none ∧
    (CreateUser env (some r) st).error = some (.unknown, .insertTokenStoreFailure) ∧
    (env.deleteOk = true →
      (CreateUser env (some r) st).store = st ∧
      (CreateUser env (some r) st).events
        = [.lockExclusive uuid, .insertAccount uuid, .deleteAccount uuid]) ∧
    (env.deleteOk = false →
      (CreateUser env (some r) st).store
        = { st with accounts := st.accounts ++
            [⟨uuid, u.firstName, u.lastName, u.email, env.hashOf u.password,
              u.organization, env.now, false, ""⟩] } ∧
      (CreateUser env (some r) st).events
        = [.lockExclusive uuid, .insertAccount uuid, .logError .deleteStoreFailure]) := by
  have hne_pw : ¬(u.password = "" ∨ goTrimSpace u.password ≠ u.password) := by
    push_neg
    exact ⟨hpne, htrim⟩
  have h1 : st.accounts.filter (fun a => a.uuid != uuid) = st.accounts :=
    filter_ne_of_any_eq_false st.accounts (fun a => a.uuid) uuid hfreshU
  have h2 : st.emailTokens.filter (fun q => q.uuid != uuid) = st.emailTokens :=
    filter_ne_of_any_eq_false st.emailTokens (fun q => q.uuid) uuid hfreshT
  cases hdel : env.deleteOk with
  | true =>
    refine ⟨?_, ?_, fun _ => ⟨?_, ?_⟩, fun hcontra => by simp [hdel] at hcontra⟩ <;>
      simp [CreateUser, createUserLocked, createUserInsert, createUserInsertToken,
        insertNewUser, insertToken, deleteUser, hashPassword, fail,
        hsa, hdb, hu, hv, hid, hidne, hbc, hins, htok, htokne, hfreshU, hfreshE,
        hdel, hne_pw, h1, h2, List.filter_append]
  | false =>
    refine ⟨?_, ?_, fun hcontra => by simp [hdel] at hcontra, fun _ => ⟨?_, ?_⟩⟩ <;>
      simp [CreateUser, createUserLocked, createUserInsert, createUserInsertToken,
        insertNewUser, insertToken, deleteUser, hashPassword, fail,
        hsa, hdb, hu, hv, hid, hidne, hbc, hins, htok, htokne, hfreshU, hfreshE,
        hdel, hne_pw]

/-- Witness for `createUser_token_insert_rollback`: on an empty store,
with the token insert failing, the call errors with the token-insert
failure and the compensating delete restores the empty store. -/
theorem createUser_token_insert_rollback_witness :
    validateUser (some demoUser) = none ∧
    rollbackEnv.insertTokenOk = false ∧
    ((CreateUser rollbackEnv (some ⟨some demoUser, none⟩) { }).response = none ∧
     (CreateUser rollbackEnv (some ⟨some demoUser, none⟩) { }).error
       = some (.unknown, .insertTokenStoreFailure) ∧
     (rollbackEnv.deleteOk = true →
       (CreateUser rollbackEnv (some ⟨some demoUser, none⟩) { }).store = { } ∧
       (CreateUser rollbackEnv (some ⟨some demoUser, none⟩) { }).events
         = [.lockExclusive "u1", .insertAccount "u1", .deleteAccount "u1"]) ∧
     (rollbackEnv.deleteOk = false →
       (CreateUser rollbackEnv (some ⟨some demoUser, none⟩) { }).store
         = { ({ } : Store) with accounts := ([] : List AccountRow) ++
             [⟨"u1", demoUser.firstName, demoUser.lastName, demoUser.email,
               rollbackEnv.hashOf demoUser.password, demoUser.organization,
               rollbackEnv.now, false, ""⟩] } ∧
       (CreateUser rollbackEnv (some ⟨some demoUser, none⟩) { }).events
         = [.lockExclusive "u1", .insertAccount "u1", .logError .deleteStoreFailure])) :=
  ⟨by decide, rfl,
   createUser_token_insert_rollback rollbackEnv ⟨some demoUser, none⟩ { } demoUser "u1" "t1"
     rfl rfl rfl (by decide) rfl (by decide) (by decide) (by decide) rfl
     rfl rfl rfl rfl (by decide) rfl⟩

/-! ## Whitespace-padded passwords (C10) -/

/-- C10: `validatePassword` accepts any password whose trimmed form is
non-empty, while `hashPassword` rejects any password that differs from
its own trimmed form; consequently a `CreateUser` request whose password
carries leading or trailing whitespace (and whose other fields are
valid) passes field validation and then fails — with the non-
`InvalidArgument` code `Unknown` — after the per-uuid lock acquisition
and before any account row is written, leaving the store untouched. -/
theorem whitespace_password_passes_validation_fails_hashing
    (env : Env) (r : UserRequest) (st : Store) (u : User) (uuid : String)
    (hsa : env.stateAvailable = true) (hdb : env.dbOk = true)
    (hu : r.user = some u)
    (htrim : goTrimSpace u.password ≠ u.password)
    (htne : goTrimSpace u.password ≠ "")
    (hfn : validateFirstName u.firstName = none)
    (hln : validateLastName u.lastName = none)
    (hem : validateEmail u.email = none)
    (hor : validateOrganization u.organization = none)
    (hid : env.uuidResult = some uuid) :
    (∀ p : String, goTrimSpace p ≠ "" → validatePassword p = none) ∧
    (∀ p : String, goTrimSpace p ≠ p → hashPassword env p = .error .errInvalidPassword) ∧
    validateUser (some u) = none ∧
    (CreateUser env (some r) st).response = none ∧
    (CreateUser env (some r) st).error = some (.unknown, .errInvalidPassword) ∧
    Code.unknown ≠ Code.invalidArgument ∧
    (CreateUser env (some r) st).store = st ∧
    (CreateUser env (some r) st).events = [Event.lockExclusive uuid] := by
  have hvp : validatePassword u.password = none := by
    unfold validatePassword
    rw [if_neg htne]
  have hvu : validateUser (some u) = none := by
    simp [validateUser, hfn, hln, hem, hor, hvp]
  have hhp : hashPassword env u.password = .error .errInvalidPassword := by
    unfold hashPassword
    rw [if_pos (Or.inr htrim)]
  refine ⟨?_, ?_, hvu, ?_, ?_, by decide, ?_, ?_⟩
  · intro p hp
    unfold validatePassword
    rw [if_neg hp]
  · intro p hp
    unfold hashPassword
    rw [if_pos (Or.inr hp)]
  all_goals
    simp [CreateUser, createUserLocked, hsa, hdb, hu, hvu, hid, hhp, fail]

/-- Witness for `whitespace_password_passes_validation_fails_hashing`:
password `" Secret1 "` (padded with spaces) on an otherwise valid user. -/
theorem whitespace_password_witness :
    goTrimSpace " Secret1 " ≠ " Secret1 " ∧
    goTrimSpace " Secret1 " ≠ "" ∧
    ((∀ p : String, goTrimSpace p ≠ "" → validatePassword p = none) ∧
     (∀ p : String, goTrimSpace p ≠ p →
       hashPassword rollbackEnv p = .error .errInvalidPassword) ∧
     validateUser (some { demoUser with password := " Secret1 " }) = none ∧
     (CreateUser rollbackEnv
       (some ⟨some { demoUser with password := " Secret1 " }, none⟩) { }).response = none ∧
     (CreateUser rollbackEnv
       (some ⟨some { demoUser with password := " Secret1 " }, none⟩) { }).error
       = some (.unknown, .errInvalidPassword) ∧
     Code.unknown ≠ Code.invalidArgument ∧
     (CreateUser rollbackEnv
       (some ⟨some { demoUser with password := " Secret1 " }, none⟩) { }).store = { } ∧
     (CreateUser rollbackEnv
       (some ⟨some { demoUser with password := " Secret1 " }, none⟩) { }).events
       = [Event.lockExclusive "u1"]) :=
  ⟨by decide, by decide,
   whitespace_password_passes_validation_fails_hashing rollbackEnv
     ⟨some { demoUser with password := " Secret1 " }, none⟩ { }
     { demoUser with password := " Secret1 " } "u1"
     rfl rfl rfl (by decide) (by decide) (by decide) (by decide) (by decide)
     (by decide) rfl⟩

/-! ## Duplicate email on a second `CreateUser` (C3) -/

theorem insertNewUser_ok_accounts (now : Int) (st : Store) (u : User) (st' : Store)
    (h : insertNewUser now st (some u) = .ok st') :
    st'.accounts = st.accounts ++
      [⟨u.uuid, u.firstName, u.lastName, u.email, u.password,
        u.organization, now, u.isVerified, ""⟩] := by
  simp only [insertNewUser] at h
  repeat' split at h
  all_goals first
    | exact Except.noConfusion h
    | (injection h with h; subst h; rfl)

theorem insertToken_ok_accounts (env : Env) (st : Store) (uuid token : String) (st' : Store)
    (h : insertToken env st uuid token = .ok st') :
    st'.accounts = st.accounts := by
  simp only [insertToken] at h
  repeat' split at h
  all_goals first
    | exact Except.noConfusion h
    | (injection h with h; subst h; rfl)

theorem createUserFinish_store (env : Env) (st2 : Store) (uuid email : String)
    (evs : List Event) : (createUserFinish env st2 uuid email evs).store = st2 := by
  unfold createUserFinish
  repeat' split
  all_goals rfl

theorem createUserInsertToken_ok_accounts (env : Env) (st1 : Store) (uuid email : String)
    (h : (createUserInsertToken env st1 uuid email).error = none) :
    (createUserInsertToken env st1 uuid email).store.accounts = st1.accounts := by
  revert h
  unfold createUserInsertToken
  repeat' split
  all_goals intro h
  case _ => simp [fail] at h
  case _ => simp [fail] at h
  case _ => simp [fail] at h
  case _ st2 heq =>
    rw [createUserFinish_store env st2 uuid email _]
    exact insertToken_ok_accounts env st1 uuid _ st2 heq

theorem createUserInsert_ok_email (env : Env) (st : Store) (user : User)
    (h : (createUserInsert env st user).error = none) :
    (createUserInsert env st user).store.accounts.any
      (fun a => a.email == user.email) = true := by
  revert h
  unfold createUserInsert
  repeat' split
  all_goals intro h
  case _ => simp [fail] at h
  case _ st1 heq =>
    rw [createUserInsertToken_ok_accounts env st1 user.uuid user.email h]
    rw [insertNewUser_ok_accounts env.now st user st1 heq]
    simp [List.any_append]

theorem createUserLocked_ok_email (env : Env) (st : Store) (user : User)
    (h : (createUserLocked env st user).error = none) :
    (createUserLocked env st user).store.accounts.any
      (fun a => a.email == user.email) = true := by
  revert h
  unfold createUserLocked
  repeat' split
  all_goals intro h
  case _ => simp [fail] at h
  case _ hashed heq =>
    exact createUserInsert_ok_email env st _ h

theorem createUser_ok_email (env : Env) (r : UserRequest) (st : Store) (u : User)
    (hu : r.user = some u) (h : (CreateUser env (some r) st).error = none) :
    (CreateUser env (some r) st).store.accounts.any
      (fun a => a.email == u.email) = true := by
  revert h
  simp only [CreateUser, hu]
  repeat' split
  all_goals intro h
  all_goals first
    | simp [fail] at h
    | exact createUserLocked_ok_email env st _ h

/-- C3 (amended): when a `CreateUser` call succeeds and a second
`CreateUser` call with the same email reaches the account insert, the
second call fails — but with the `Unknown` status code wrapping the
store's duplicate-email unique-constraint violation, not with an
`AlreadyExists`/conflict code. -/
theorem duplicate_email_second_create_fails
    (env1 env2 : Env) (q1 q2 : UserRequest) (st : Store) (u1 u2 : User) (uuid2 : String)
    (hq1 : q1.user = some u1)
    (h1ok : (CreateUser env1 (some q1) st).error = none)
    (hsa : env2.stateAvailable = true) (hdb : env2.dbOk = true)
    (hq2 : q2.user = some u2)
    (hv2 : validateUser (some u2) = none)
    (hemail : u2.email = u1.email)
    (hid2 : env2.uuidResult = some uuid2)
    (hpne : u2.password ≠ "") (htrim : goTrimSpace u2.password = u2.password)
    (hbc : env2.bcryptOk = true)
    (hfreshU : (CreateUser env1 (some q1) st).store.accounts.any
      (fun a => a.uuid == uuid2) = false) :
    (CreateUser env2 (some q2) (CreateUser env1 (some q1) st).store).response = none ∧
    (CreateUser env2 (some q2) (CreateUser env1 (some q1) st).store).error
      = some (.unknown, .pqUniqueViolationEmail) := by
  obtain ⟨st1, hst1⟩ : ∃ st1, (CreateUser env1 (some q1) st).store = st1 := ⟨_, rfl⟩
  have hdup : st1.accounts.any (fun a => a.email == u2.email) = true := by
    rw [← hst1, hemail]
    exact createUser_ok_email env1 q1 st u1 hq1 h1ok
  rw [hst1] at hfreshU
  have hne : ¬(u2.password = "" ∨ goTrimSpace u2.password ≠ u2.password) := by
    push_neg
    exact ⟨hpne, htrim⟩
  have hhp2 : hashPassword env2 u2.password = .ok (env2.hashOf u2.password) := by
    unfold hashPassword
    rw [if_neg hne, hbc]
    rfl
  have hins : insertNewUser env2.now st1
      (some { u2 with uuid := uuid2, password := env2.hashOf u2.password, isVerified := false })
      = .error .pqUniqueViolationEmail := by
    simp only [insertNewUser]
    rw [if_neg (by simp [hfreshU]), if_pos (by simp [hdup])]
  have hcall : CreateUser env2 (some q2) st1 = createUserLocked env2 st1 { u2 with uuid := uuid2 } := by
    simp [CreateUser, hsa, hdb, hq2, hv2, hid2]
  have hlocked : createUserLocked env2 st1 { u2 with uuid := uuid2 }
      = fail .unknown .pqUniqueViolationEmail st1 [Event.lockExclusive uuid2] := by
    unfold createUserLocked
    show (match hashPassword env2 u2.password with
      | .error e => fail .unknown e st1 [Event.lockExclusive uuid2]
      | .ok hashed => createUserInsert env2 st1
          { u2 with uuid := uuid2, password := hashed, isVerified := false }) = _
    rw [hhp2]
    show createUserInsert env2 st1
      { u2 with uuid := uuid2, password := env2.hashOf u2.password, isVerified := false } = _
    unfold createUserInsert
    rw [hins]
  rw [hst1, hcall, hlocked]
  exact ⟨rfl, rfl⟩

/-- C3 counterexample: creating the same user twice, the first call
succeeds and the second fails — but its status code is `Unknown`
(wrapping the unique-constraint violation), not the claimed
`AlreadyExists`/conflict class. -/
theorem duplicate_email_unknown_code_counterexample :
    (CreateUser firstCreateEnv (some ⟨some demoUser, none⟩) { }).error = none ∧
    (CreateUser secondCreateEnv (some ⟨some demoUser, none⟩)
        (CreateUser firstCreateEnv (some ⟨some demoUser, none⟩) { }).store).error
      = some (.unknown, .pqUniqueViolationEmail) ∧
    Code.unknown ≠ Code.alreadyExists := by
  decide

/-- Witness for `duplicate_email_second_create_fails` on the concrete
pair of runs. -/
theorem duplicate_email_second_create_fails_witness :
    (CreateUser firstCreateEnv (some ⟨some demoUser, none⟩) { }).error = none ∧
    ((CreateUser secondCreateEnv (some ⟨some demoUser, none⟩)
        (CreateUser firstCreateEnv (some ⟨some demoUser, none⟩) { }).store).response = none ∧
     (CreateUser secondCreateEnv (some ⟨some demoUser, none⟩)
        (CreateUser firstCreateEnv (some ⟨some demoUser, none⟩) { }).store).error
      = some (.unknown, .pqUniqueViolationEmail)) :=
  ⟨by decide,
   duplicate_email_second_create_fails firstCreateEnv secondCreateEnv
     ⟨some demoUser, none⟩ ⟨some demoUser, none⟩ { } demoUser demoUser "u2"
     rfl (by decide) rfl rfl rfl (by decide) rfl rfl (by decide) (by decide) rfl
     (by decide)⟩

/-! ## `GetUser` never returns the password digest (C8) -/

/-- C8: every successful `GetUser` response carries a user record that
equals a stored account row through `rowToUser` — the identifier, the
names, the email, the organization and the creation timestamp — and
whose password field is the empty string (the digest column is never
selected by `getUserRow`). -/
theorem getUser_response_no_password (env : Env) (req : Option UserRequest) (st : Store)
    (resp : UserResponse) (v : User)
    (hresp : (GetUser env req st).response = some resp)
    (hv : resp.user = some v) :
    v.password = "" ∧ ∃ a ∈ st.accounts, v = rowToUser a := by
  revert hresp
  unfold GetUser
  repeat' split
  all_goals intro hresp
  all_goals try simp [fail] at hresp
  rename_i u heq
  subst hresp
  injection hv with hv
  subst hv
  revert heq
  unfold getUserRow
  split
  · intro heq
    exact Except.noConfusion heq
  · intro heq
    injection heq with heq
    obtain ⟨a, ha, hrow⟩ := Option.map_eq_some'.mp heq
    exact ⟨by rw [← hrow]; rfl, a, List.mem_of_find?_eq_some ha, hrow.symm⟩

/-- Witness for `getUser_response_no_password` on the one-account
`demoStore`. -/
theorem getUser_response_no_password_witness :
    ((GetUser { } (some ⟨some { uuid := demoUuid }, none⟩) demoStore).response
      = some ⟨.ok, "OK",
          some (rowToUser ⟨demoUuid, "Lisa", "Kim", "lisa@test.com", "digest", "uwb", 0, false, ""⟩)⟩) ∧
    ((rowToUser ⟨demoUuid, "Lisa", "Kim", "lisa@test.com", "digest", "uwb", 0, false, ""⟩).password = "" ∧
     ∃ a ∈ demoStore.accounts,
       rowToUser ⟨demoUuid, "Lisa", "Kim", "lisa@test.com", "digest", "uwb", 0, false, ""⟩
         = rowToUser a) :=
  ⟨by decide,
   getUser_response_no_password { } (some ⟨some { uuid := demoUuid }, none⟩) demoStore
     ⟨.ok, "OK",
       some (rowToUser ⟨demoUuid, "Lisa", "Kim", "lisa@test.com", "digest", "uwb", 0, false, ""⟩)⟩
     (rowToUser ⟨demoUuid, "Lisa", "Kim", "lisa@test.com", "digest", "uwb", 0, false, ""⟩)
     (by decide) rfl⟩

/-! ## Expired email tokens (C2) -/

theorem any_filter_eq_false {α : Type} (l : List α) (p q : α → Bool)
    (h : l.any q = false) : (l.filter p).any q = false := by
  induction l with
  | nil => rfl
  | cons a t ih =>
    simp only [List.any_cons, Bool.or_eq_false_iff] at h
    rw [List.filter_cons]
    split
    · simp [List.any_cons, h.1, ih h.2]
    · exact ih h.2

theorem any_filter_ne_self {α β : Type} [BEq β] (l : List α) (f : α → β) (b : β) :
    (l.filter (fun x => f x != b)).any (fun x => f x == b) = false := by
  induction l with
  | nil => rfl
  | cons a t ih =>
    rw [List.filter_cons]
    split
    · rename_i hcond
      have hf : (f a == b) = false := by
        simpa [bne] using hcond
      simp [List.any_cons, hf, ih]
    · exact ih

theorem all_clear_prospective (l : List AccountRow) (u : String) :
    (l.map (fun a => if a.uuid == u then { a with prospectiveEmail := "" } else a)).all
      (fun a => a.uuid != u || a.prospectiveEmail == "") = true := by
  induction l with
  | nil => rfl
  | cons a t ih =>
    simp only [List.map_cons, List.all_cons, ih, Bool.and_true]
    by_cases hc : (a.uuid == u) = true
    · simp [hc]
    · simp [hc, bne]

theorem any_map_uuid (l : List AccountRow) (u : String) (a : AccountRow)
    (ha : l.find? (fun x => x.uuid == u) = some a) :
    (l.map (fun x => if x.uuid == u then { x with prospectiveEmail := "" } else x)).any
      (fun x => x.uuid == u) = true := by
  have hmem : a ∈ l := List.mem_of_find?_eq_some ha
  have hpa : (a.uuid == u) = true := by simpa using List.find?_some ha
  rw [List.any_map]
  refine List.any_eq_true.mpr ⟨a, hmem, ?_⟩
  simp [Function.comp, hpa]

theorem validateUUID_none_ne_empty (u : String) (h : validateUUID u = none) : u ≠ "" := by
  intro he
  subst he
  simp [validateUUID] at h

/-- C2: presenting a stored email token whose expiration is before the
current time makes `VerifyEmailToken` fail with `DeadlineExceeded` and
delete the token row; if the owning account is still unverified the
account row is deleted as well — and a subsequent `GetUser` for its id
fails with `NotFound` — while if the account is already verified the
account row is kept and only its prospective-email is cleared. -/
theorem verifyEmailToken_expired_spec (env env2 : Env) (r : UserRequest) (st : Store)
    (ident : Identification) (row : EmailTokenRow)
    (hident : r.identification = some ident)
    (htkne : ident.token ≠ "")
    (hfind : st.emailTokens.find? (fun q => q.token == ident.token) = some row)
    (hexp : row.expiration < env.now) :
    ((VerifyEmailToken env (some r) st).response = none ∧
     (VerifyEmailToken env (some r) st).error
       = some (.deadlineExceeded, .errExpiredEmailToken)) ∧
    (VerifyEmailToken env (some r) st).store.emailTokens.any
      (fun q => q.token == ident.token) = false ∧
    (∀ acct, st.accounts.find? (fun a => a.uuid == row.uuid) = some acct →
      acct.isVerified = false →
      (VerifyEmailToken env (some r) st).store.accounts.any
        (fun a => a.uuid == row.uuid) = false ∧
      (env2.stateAvailable = true → env2.dbOk = true → validateUUID row.uuid = none →
        (GetUser env2 (some ⟨some { uuid := row.uuid }, none⟩)
          (VerifyEmailToken env (some r) st).store).error
          = some (.notFound, .errDoesNotExistUUID))) ∧
    (∀ acct, st.accounts.find? (fun a => a.uuid == row.uuid) = some acct →
      acct.isVerified = true →
      (VerifyEmailToken env (some r) st).store.accounts.any
        (fun a => a.uuid == row.uuid) = true ∧
      (VerifyEmailToken env (some r) st).store.accounts.all
        (fun a => a.uuid != row.uuid || a.prospectiveEmail == "") = true) := by
  have hcall : VerifyEmailToken env (some r) st = verifyEmailTokenExpired st ident.token row := by
    simp only [VerifyEmailToken, hident, hfind]
    rw [if_neg htkne, if_pos hexp]
  rw [hcall]
  cases hacct : st.accounts.find? (fun a => a.uuid == row.uuid) with
  | none =>
    have hred : verifyEmailTokenExpired st ident.token row
        = fail .deadlineExceeded .errExpiredEmailToken
            { st with emailTokens := st.emailTokens.filter (fun q => q.token != ident.token) }
            [] := by
      unfold verifyEmailTokenExpired
      rw [hacct]
    rw [hred]
    refine ⟨⟨rfl, rfl⟩, ?_, ?_, ?_⟩
    · exact any_filter_ne_self st.emailTokens (fun q => q.token) ident.token
    · intro acct hf
      exact absurd hf (by simp)
    · intro acct hf
      exact absurd hf (by simp)
  | some acct0 =>
    cases hver : acct0.isVerified with
    | false =>
      have hred : verifyEmailTokenExpired st ident.token row
          = fail .deadlineExceeded .errExpiredEmailToken
              { st with
                accounts := st.accounts.filter (fun a => a.uuid != row.uuid),
                emailTokens := (st.emailTokens.filter (fun q => q.token != ident.token)).filter
                  (fun q => q.uuid != row.uuid) }
              [Event.deleteAccount row.uuid] := by
        unfold verifyEmailTokenExpired
        rw [hacct]
        simp [hver]
      rw [hred]
      have haccNone : (st.accounts.filter (fun a => a.uuid != row.uuid)).any
          (fun a => a.uuid == row.uuid) = false :=
        any_filter_ne_self st.accounts (fun a => a.uuid) row.uuid
      refine ⟨⟨rfl, rfl⟩, ?_, ?_, ?_⟩
      · exact any_filter_eq_false _ _ _
          (any_filter_ne_self st.emailTokens (fun q => q.token) ident.token)
      · intro acct hf hverf
        refine ⟨haccNone, ?_⟩
        intro hsa2 hdb2 hvuuid
        have hne := validateUUID_none_ne_empty row.uuid hvuuid
        simp [GetUser, hsa2, hdb2, hvuuid, checkUserExists, hne, haccNone, fail]
      · intro acct hf hvert
        injection hf with hf
        subst hf
        rw [hver] at hvert
        exact absurd hvert (by simp)
    | true =>
      have hred : verifyEmailTokenExpired st ident.token row
          = fail .deadlineExceeded .errExpiredEmailToken
              { st with
                accounts := st.accounts.map (fun a =>
                  if a.uuid == row.uuid then { a with prospectiveEmail := "" } else a),
                emailTokens := st.emailTokens.filter (fun q => q.token != ident.token) }
              [Event.updateAccount row.uuid] := by
        unfold verifyEmailTokenExpired
        rw [hacct]
        simp [hver]
      rw [hred]
      refine ⟨⟨rfl, rfl⟩, ?_, ?_, ?_⟩
      · exact any_filter_ne_self st.emailTokens (fun q => q.token) ident.token
      · intro acct hf hverf
        injection hf with hf
        subst hf
        rw [hver] at hverf
        exact absurd hverf (by simp)
      · intro acct hf hvert
        exact ⟨any_map_uuid st.accounts row.uuid acct0 hacct,
               all_clear_prospective st.accounts row.uuid⟩

/-- Witness for `verifyEmailToken_expired_spec`: the expired token
`"t1"` of the unverified `demoUuid` account at time 10. -/
theorem verifyEmailToken_expired_spec_witness :
    expiredStore.emailTokens.find? (fun q => q.token == "t1")
      = some ⟨"t1", demoUuid, 0, 5⟩ ∧
    ((5 : Int) < expiredEnv.now) ∧
    (((VerifyEmailToken expiredEnv (some ⟨none, some ⟨"t1"⟩⟩) expiredStore).response = none ∧
      (VerifyEmailToken expiredEnv (some ⟨none, some ⟨"t1"⟩⟩) expiredStore).error
        = some (.deadlineExceeded, .errExpiredEmailToken)) ∧
     (VerifyEmailToken expiredEnv (some ⟨none, some ⟨"t1"⟩⟩) expiredStore).store.emailTokens.any
       (fun q => q.token == (⟨"t1"⟩ : Identification).token) = false ∧
     (∀ acct, expiredStore.accounts.find?
         (fun a => a.uuid == (⟨"t1", demoUuid, 0, 5⟩ : EmailTokenRow).uuid) = some acct →
       acct.isVerified = false →
       (VerifyEmailToken expiredEnv (some ⟨none, some ⟨"t1"⟩⟩) expiredStore).store.accounts.any
         (fun a => a.uuid == (⟨"t1", demoUuid, 0, 5⟩ : EmailTokenRow).uuid) = false ∧
       (({ } : Env).stateAvailable = true → ({ } : Env).dbOk = true →
         validateUUID (⟨"t1", demoUuid, 0, 5⟩ : EmailTokenRow).uuid = none →
         (GetUser { } (some ⟨some { uuid := (⟨"t1", demoUuid, 0, 5⟩ : EmailTokenRow).uuid }, none⟩)
           (VerifyEmailToken expiredEnv (some ⟨none, some ⟨"t1"⟩⟩) expiredStore).store).error
           = some (.notFound, .errDoesNotExistUUID))) ∧
     (∀ acct, expiredStore.accounts.find?
         (fun a => a.uuid == (⟨"t1", demoUuid, 0, 5⟩ : EmailTokenRow).uuid) = some acct →
       acct.isVerified = true →
       (VerifyEmailToken expiredEnv (some ⟨none, some ⟨"t1"⟩⟩) expiredStore).store.accounts.any
         (fun a => a.uuid == (⟨"t1", demoUuid, 0, 5⟩ : EmailTokenRow).uuid) = true ∧
       (VerifyEmailToken expiredEnv (some ⟨none, some ⟨"t1"⟩⟩) expiredStore).store.accounts.all
         (fun a => a.uuid != (⟨"t1", demoUuid, 0, 5⟩ : EmailTokenRow).uuid
           || a.prospectiveEmail == "") = true)) :=
  ⟨by decide, by decide,
   verifyEmailToken_expired_spec expiredEnv { } ⟨none, some ⟨"t1"⟩⟩ expiredStore
     ⟨"t1"⟩ ⟨"t1", demoUuid, 0, 5⟩ rfl (by decide) (by decide) (by decide)⟩
